import Mathlib

/-!
# Teleport: packet context life cycle (context.go)

A shallow embedding of `readHandleCtx` and `PullCmd` from `context.go`.

* The mutable Go objects (the context, its session, the heap of `PullCmd`
  objects and the completion channels) are the fields of one state `St`.
* Every method is a state-passing computation `M α := St → Res α × St`
  whose result is a normal return, a Go panic or a goroutine parked on a
  channel send.  `defer func() { recover() ... }()` is `M.recover`.
* Code that lives outside `context.go` (plugin hooks, router, handler thunks,
  `url.Parse`, `session.write`, status constants) is collected in `Env`, one
  field per call site; each field is the outcome of that call.
* Every call that leaves `context.go` appends an `Event` to `St.trace`.
-/

namespace Teleport

/-! ## Data model -/

/-- Wire error: `Xerror` is used through `Code()` and `Text()` only;
`NewXerror(code, text)` is the constructor. -/
structure Xerror where
  code : Int
  text : String
deriving DecidableEq, Repr

/-- Go `NewXerror(code, text)`. -/
def NewXerror (code : Int) (text : String) : Xerror := ⟨code, text⟩

/-- Record `socket.Header`, the fields that `context.go` reads or writes.
`Typ` is the Go field `Type`. -/
structure Header where
  Seq : Nat
  Typ : Nat
  Uri : String
  Gzip : Int
  StatusCode : Int
  Status : String
deriving DecidableEq, Repr

/-- Values held in a packet body (`interface{}`) and body slots returned by
the binding callback. -/
inductive Body where
  /-- the nil interface: no body slot -/
  | nil
  /-- `new([]byte)`: raw bytes for an unknown handler -/
  | rawBytes
  /-- `reflect.New(argElem).Interface()` -/
  | arg (argElem : Nat)
  /-- any other value, such as a reply slot given by the caller of a pull or
  the value returned by a handler -/
  | val (v : Nat)
  /-- a `*[]byte` whose slice holds the raw body bytes, `none` for the nil
  slice -/
  | bytesPtr (b : Option (List UInt8))
deriving DecidableEq, Repr

/-- Record `socket.Packet`. -/
structure Packet where
  Header : Header
  HeaderCodec : String
  BodyCodec : String
  Body : Body
  Size : Nat
deriving DecidableEq, Repr

/-- Parsed `url.URL`: the two fields read by the context. -/
structure URL where
  Path : String
  RawQuery : String
deriving DecidableEq, Repr

/-- Handler descriptor `Handler` (declared in the router): the fields read by
`context.go`.  `id` names the invocation thunks `handleFunc` and
`unknownHandleFunc` of this descriptor; `pluginContainer` is an interface
value and may be nil. -/
structure Handler where
  id : Nat
  argElem : Nat
  isUnknown : Bool
  pluginContainer : Option Nat
deriving DecidableEq, Repr

/-- The Go struct `PullCmd`.  `doneChan` is the identity of the channel. -/
structure PullCmd where
  output : Packet
  reply : Body
  xerror : Option Xerror
  doneChan : Nat
  start : Nat
  cost : Nat
  public : List (String × String)
deriving DecidableEq, Repr

/-- A Go channel of `*PullCmd`: capacity, closed flag and buffered values
(pointers into the `PullCmd` heap), oldest first. -/
structure Chan where
  cap : Nat
  closed : Bool
  buf : List Nat
deriving DecidableEq, Repr

/-- The Go struct `readHandleCtx` (without the pool link `next`).  `sess`,
`apiType`, `pullCmd`, `uri` are pointers and `pluginContainer` is an
interface: `none` is nil.  `arg` is `none` for `emptyValue`. -/
structure Ctx where
  sess : Option Nat
  input : Packet
  output : Packet
  apiType : Option Handler
  arg : Option Nat
  pullCmd : Option Nat
  uri : Option URL
  query : Option String
  public : Option (List (String × String))
  start : Nat
  cost : Nat
  pluginContainer : Option Nat
deriving DecidableEq, Repr

/-- The part of `session` that `context.go` touches: the pending-pull table
`pullCmdMap` (sequence number to `*PullCmd`), the counter of the wait group
`gracePullCmdWaitGroup`, the plugin container of the owning peer, and the
public map of the socket. -/
structure Session where
  pullCmdMap : List (Nat × Nat)
  gracePullCmdWaitGroup : Int
  peerPluginContainer : Option Nat
  printBody : Bool
  /-- the public map of the socket, `s.socket.Public()`, as its entries -/
  socketPublic : List (String × String) := []
deriving DecidableEq, Repr

/-- Names of the plugin hook points called from `context.go`. -/
inductive HookPoint where
  | PostReadPushHeader | PreReadPushBody | PostReadPushBody
  | PostReadPullHeader | PreReadPullBody | PostReadPullBody
  | PreWriteReply | PostWriteReply
  | PostReadReplyHeader | PreReadReplyBody | PostReadReplyBody
deriving DecidableEq, Repr

/-- Calls that leave `context.go`, in the order they happen. -/
inductive Event where
  | hook (container : Nat) (point : HookPoint)
  | urlParse (uri : String)
  | pushRouterGet (path : String)
  | pullRouterGet (path : String)
  | handleFunc (handler : Nat)
  | unknownHandleFunc (handler : Nat)
  | write (p : Packet)
  | send (chan : Nat) (cmd : Nat)
  | errorf
  | debugf
  | runlog
  | sessClose
deriving DecidableEq, Repr

/-- Whole state: the context, its session, the heap of `PullCmd` objects,
the channels, and the trace of external calls. -/
structure St where
  ctx : Ctx
  sess : Session
  cmds : Nat → PullCmd
  chans : Nat → Chan
  trace : List Event

/-! ## Outcomes of code outside `context.go` -/

/-- Outcome of a plugin hook: nil, a wire error, or a panic. -/
inductive HookOutcome where
  | pass
  | fail (e : Xerror)
  | panics
deriving DecidableEq, Repr

/-- Outcome of `Router.get`. -/
inductive Lookup where
  | found (h : Handler)
  | missing
  | panics
deriving DecidableEq, Repr

/-- Outcome of a pull handler thunk. -/
inductive PullOutcome where
  | returns (body : Body) (xerr : Option Xerror) (bodyCodec : Option String)
  | panics
deriving DecidableEq, Repr

/-- Outcome of a push handler thunk. -/
inductive PushOutcome where
  | returns
  | panics
deriving DecidableEq, Repr

/-- Behaviour of everything `context.go` calls but does not define, during
the processing of one packet.  Each hook point of a container, the router
lookup of a path and each handler thunk runs at most once per packet, so its
outcome is a value.

* `hook`: Modelled from the spec: the plugin container is not under src/;
  "each hook receives a context and may short-circuit with a wire-level
  error".
* `pushRouterGet`, `pullRouterGet`: Modelled from the spec: the router is not
  under src/; "get(path) -> (descriptor, ok)", here `found h` for
  `(h, true)` and `missing` for `(nil, false)`.
* `pullHandle`, `unknownPullHandle`, `pushHandle`, `unknownPushHandle`:
  Modelled from the spec: the invocation thunk of a descriptor is not under
  src/; "given context and argument, produces reply value + wire error".
* `urlParse`: `url.Parse`, returning the error text on failure.
* `write`: `session.write`, returning the error text on failure.
* status and packet-type constants and `StatusText` are declared outside
  `context.go`; `StatusOK` and `StatusNotFound` are given by the spec.
* `unmarshal`: Modelled from the spec: `socket.Unmarshal(b, v, isGzip)` is
  not under src/; it "re-decodes those bytes into a typed value" and returns
  the codec name and the error, `none` for nil. -/
structure Env where
  hook : Nat → HookPoint → HookOutcome
  pushRouterGet : String → Lookup
  pullRouterGet : String → Lookup
  pullHandle : Nat → PullOutcome
  unknownPullHandle : Nat → PullOutcome
  pushHandle : Nat → PushOutcome
  unknownPushHandle : Nat → PushOutcome
  urlParse : String → Except String URL
  write : Packet → Option String
  now : Nat
  since : Nat → Nat
  StatusText : Int → String
  StatusBadUri : Int
  StatusWriteFailed : Int
  StatusConnClosed : Int
  StatusUnsupportedTx : Int
  StatusInternalServerError : Int
  TypePull : Nat
  TypeReply : Nat
  TypePush : Nat
  unmarshal : List UInt8 → Body → Bool → String × Option String := fun _ _ _ => ("", none)

/-- Modelled from the spec: "Status codes used by the core: OK=200". -/
def StatusOK : Int := 200

/-- Modelled from the spec: "NOT_FOUND=404". -/
def StatusNotFound : Int := 404

/-! ## The computation monad -/

/-- How a call ends: normal return, panic, or parked forever on a channel. -/
inductive Res (α : Type) where
  | ok (a : α)
  | panic
  | block
deriving DecidableEq, Repr

/-- State-passing computations over `St`. -/
def M (α : Type) : Type := St → Res α × St

/-- Sequencing: a panic or a parked goroutine skips the rest. -/
def M.bind {α β : Type} (m : M α) (f : α → M β) : M β := fun s =>
  match m s with
  | (Res.ok a, s1) => f a s1
  | (Res.panic, s1) => (Res.panic, s1)
  | (Res.block, s1) => (Res.block, s1)

/-- Normal return. -/
def M.pure {α : Type} (a : α) : M α := fun s => (Res.ok a, s)

instance : Monad M where
  pure := M.pure
  bind := M.bind

/-- Go `recover()` in a deferred function: `some a` when the body returned
`a`, `none` when it panicked (the panic is stopped).  A parked goroutine
stays parked. -/
def M.recover {α : Type} (m : M α) : M (Option α) := fun s =>
  match m s with
  | (Res.ok a, s1) => (Res.ok (some a), s1)
  | (Res.panic, s1) => (Res.ok none, s1)
  | (Res.block, s1) => (Res.block, s1)

/-- A Go panic. -/
def M.panic {α : Type} : M α := fun s => (Res.panic, s)

/-- A goroutine parked forever. -/
def M.block {α : Type} : M α := fun s => (Res.block, s)

/-- Read the state. -/
def M.get : M St := fun s => (Res.ok s, s)

/-- Update the state. -/
def M.modify (f : St → St) : M Unit := fun s => (Res.ok (), f s)

/-- Record an external call. -/
def emit (e : Event) : M Unit :=
  M.modify fun s => { s with trace := s.trace ++ [e] }

/-- Update the context. -/
def modifyCtx (f : Ctx → Ctx) : M Unit :=
  M.modify fun s => { s with ctx := f s.ctx }

/-- Update the output header `c.output.Header`. -/
def modifyOutHeader (f : Header → Header) : M Unit :=
  modifyCtx fun c => { c with output := { c.output with Header := f c.output.Header } }

/-- Dereference `c.sess`: a nil session pointer panics. -/
def derefSess : M Session := fun s =>
  match s.ctx.sess with
  | none => (Res.panic, s)
  | some _ => (Res.ok s.sess, s)

/-- Dereference `c.apiType`. -/
def derefApiType : M Handler := fun s =>
  match s.ctx.apiType with
  | none => (Res.panic, s)
  | some h => (Res.ok h, s)

/-- Dereference `c.uri`. -/
def derefUri : M URL := fun s =>
  match s.ctx.uri with
  | none => (Res.panic, s)
  | some u => (Res.ok u, s)

/-- Call hook `pt` of `c.pluginContainer` with the context; a nil container
panics.  The result is the wire error, `none` for nil. -/
def callHook (env : Env) (pt : HookPoint) : M (Option Xerror) := fun s =>
  match s.ctx.pluginContainer with
  | none => (Res.panic, s)
  | some pc =>
    let s1 := { s with trace := s.trace ++ [Event.hook pc pt] }
    match env.hook pc pt with
    | HookOutcome.pass => (Res.ok none, s1)
    | HookOutcome.fail e => (Res.ok (some e), s1)
    | HookOutcome.panics => (Res.panic, s1)

/-- Method `c.Path()`: `c.uri.Path`. -/
def Path : M String := do
  let u ← derefUri
  pure u.Path

/-- Go `time.Since(t)`. -/
def timeSince (env : Env) (t : Nat) : Nat := env.since t

/-- Method `c.sess.runlog(cost, input, output)`: logging only. -/
def runlog : M Unit := do
  let _ ← derefSess
  emit Event.runlog

/-- Method `c.sess.write(packet)`: the packet is handed to the session; the
result is the error text, `none` for nil. -/
def sessWrite (env : Env) (p : Packet) : M (Option String) := do
  let _ ← derefSess
  emit (Event.write p)
  pure (env.write p)

/-- Modelled from the spec: the thunk `handleFunc` of a PULL descriptor is
not under src/; it "produces reply value + wire error": the reply value
becomes the output body, a wire error becomes the output status, and the
handler may choose the body codec through `SetBodyCodec`. -/
def pullReturn (body : Body) (xerr : Option Xerror) (codec : Option String) : M Unit := do
  modifyCtx fun c => { c with output := { c.output with Body := body } }
  match codec with
  | some n => modifyCtx fun c => { c with output := { c.output with BodyCodec := n } }
  | none => pure ()
  match xerr with
  | some e => modifyOutHeader fun h => { h with StatusCode := e.code, Status := e.text }
  | none => pure ()

/-- Call `c.apiType.handleFunc(c, c.arg)` of a PULL descriptor. -/
def pullHandleFunc (env : Env) (h : Handler) : M Unit := do
  emit (Event.handleFunc h.id)
  match env.pullHandle h.id with
  | PullOutcome.panics => M.panic
  | PullOutcome.returns body xerr codec => pullReturn body xerr codec

/-- Call `c.apiType.unknownHandleFunc(c)` of a PULL descriptor. -/
def pullUnknownHandleFunc (env : Env) (h : Handler) : M Unit := do
  emit (Event.unknownHandleFunc h.id)
  match env.unknownPullHandle h.id with
  | PullOutcome.panics => M.panic
  | PullOutcome.returns body xerr codec => pullReturn body xerr codec

/-- Call `c.apiType.handleFunc(c, c.arg)` of a PUSH descriptor. -/
def pushHandleFunc (env : Env) (h : Handler) : M Unit := do
  emit (Event.handleFunc h.id)
  match env.pushHandle h.id with
  | PushOutcome.panics => M.panic
  | PushOutcome.returns => pure ()

/-- Call `c.apiType.unknownHandleFunc(c)` of a PUSH descriptor. -/
def pushUnknownHandleFunc (env : Env) (h : Handler) : M Unit := do
  emit (Event.unknownHandleFunc h.id)
  match env.unknownPushHandle h.id with
  | PushOutcome.panics => M.panic
  | PushOutcome.returns => pure ()

/-- Lookup `c.sess.pushRouter.get(path)`. -/
def pushRouterGet (env : Env) (path : String) : M (Option Handler) := do
  let _ ← derefSess
  emit (Event.pushRouterGet path)
  match env.pushRouterGet path with
  | Lookup.found h => pure (some h)
  | Lookup.missing => pure none
  | Lookup.panics => M.panic

/-- Lookup `c.sess.pullRouter.get(path)`. -/
def pullRouterGet (env : Env) (path : String) : M (Option Handler) := do
  let _ ← derefSess
  emit (Event.pullRouterGet path)
  match env.pullRouterGet path with
  | Lookup.found h => pure (some h)
  | Lookup.missing => pure none
  | Lookup.panics => M.panic

/-- Go `url.Parse(uri)`. -/
def urlParse (env : Env) (uri : String) : M (Except String URL) := do
  emit (Event.urlParse uri)
  pure (env.urlParse uri)

/-! ## PUSH -/

/-- Method `readHandleCtx.bindPush` (context.go 267-294). -/
def bindPush (env : Env) (header : Header) : M Body := do
  let err ← callHook env HookPoint.PostReadPushHeader
  if err.isSome then
    return Body.nil
  match ← urlParse env header.Uri with
  | Except.error _ =>
    modifyCtx fun c => { c with uri := none }
    return Body.nil
  | Except.ok u =>
  modifyCtx fun c => { c with uri := some u }
  let path ← Path
  let apiType ← pushRouterGet env path
  modifyCtx fun c => { c with apiType := apiType }
  if apiType.isNone then
    return Body.nil
  let h ← derefApiType
  modifyCtx fun c => { c with pluginContainer := h.pluginContainer }
  modifyCtx fun c => { c with arg := some h.argElem }
  modifyCtx fun c => { c with input := { c.input with Body := Body.arg h.argElem } }
  let err ← callHook env HookPoint.PreReadPushBody
  if err.isSome then
    return Body.nil
  let s ← M.get
  return s.ctx.input.Body

/-- Body of `handlePush`, without the deferred function. -/
def handlePushBody (env : Env) : M Unit := do
  let s ← M.get
  if s.ctx.apiType.isNone then
    return ()
  let err ← callHook env HookPoint.PostReadPushBody
  if err.isSome then
    return ()
  let h ← derefApiType
  if h.isUnknown then
    pushUnknownHandleFunc env h
  else
    pushHandleFunc env h

/-- Method `readHandleCtx.handlePush` (context.go 297-320): the body, then
the deferred function (recover and log, cost, run-log). -/
def handlePush (env : Env) : M Unit := do
  let r ← M.recover (handlePushBody env)
  if r.isNone then
    emit Event.errorf
  modifyCtx fun c => { c with cost := timeSince env c.start }
  runlog

/-! ## PULL -/

/-- Method `readHandleCtx.bindPull` (context.go 322-369). -/
def bindPull (env : Env) (header : Header) : M Body := do
  modifyOutHeader fun h => { h with Seq := header.Seq }
  modifyOutHeader fun h => { h with Typ := env.TypeReply }
  modifyOutHeader fun h => { h with Uri := header.Uri }
  modifyCtx fun c => { c with output := { c.output with HeaderCodec := c.input.HeaderCodec } }
  modifyOutHeader fun h => { h with Gzip := header.Gzip }
  match ← callHook env HookPoint.PostReadPullHeader with
  | some xerr =>
    modifyOutHeader fun h => { h with StatusCode := xerr.code }
    modifyOutHeader fun h => { h with Status := xerr.text }
    return Body.nil
  | none =>
  match ← urlParse env header.Uri with
  | Except.error msg =>
    modifyCtx fun c => { c with uri := none }
    modifyOutHeader fun h => { h with StatusCode := env.StatusBadUri }
    modifyOutHeader fun h => { h with Status := msg }
    return Body.nil
  | Except.ok u =>
  modifyCtx fun c => { c with uri := some u }
  let path ← Path
  let apiType ← pullRouterGet env path
  modifyCtx fun c => { c with apiType := apiType }
  if apiType.isNone then
    modifyOutHeader fun h => { h with StatusCode := StatusNotFound }
    modifyOutHeader fun h => { h with Status := env.StatusText StatusNotFound }
    return Body.nil
  let h ← derefApiType
  modifyCtx fun c => { c with pluginContainer := h.pluginContainer }
  if h.isUnknown then
    modifyCtx fun c => { c with input := { c.input with Body := Body.rawBytes } }
  else
    modifyCtx fun c => { c with arg := some h.argElem }
    modifyCtx fun c => { c with input := { c.input with Body := Body.arg h.argElem } }
  match ← callHook env HookPoint.PreReadPullBody with
  | some xerr =>
    modifyOutHeader fun h => { h with StatusCode := xerr.code }
    modifyOutHeader fun h => { h with Status := xerr.text }
    return Body.nil
  | none =>
  modifyOutHeader fun h => { h with StatusCode := StatusOK }
  modifyOutHeader fun h => { h with Status := env.StatusText StatusOK }
  let s ← M.get
  return s.ctx.input.Body

/-- Body of `handlePull`, without the deferred function. -/
def handlePullBody (env : Env) : M Unit := do
  let s ← M.get
  if s.ctx.output.Header.StatusCode = StatusOK then
    match ← callHook env HookPoint.PostReadPullBody with
    | some xerr =>
      modifyOutHeader fun h => { h with StatusCode := xerr.code }
      modifyOutHeader fun h => { h with Status := xerr.text }
    | none =>
      let h ← derefApiType
      if h.isUnknown then
        pullUnknownHandleFunc env h
      else
        pullHandleFunc env h
  let _ ← callHook env HookPoint.PreWriteReply
  let s ← M.get
  match ← sessWrite env s.ctx.output with
  | some err =>
    modifyOutHeader fun h => { h with StatusCode := env.StatusWriteFailed }
    modifyOutHeader fun h =>
      { h with Status := env.StatusText env.StatusWriteFailed ++ ": " ++ err }
  | none => pure ()
  let _ ← callHook env HookPoint.PostWriteReply
  pure ()

/-- Method `readHandleCtx.handlePull` (context.go 372-405): the body, then
the deferred function (recover and log, cost, run-log). -/
def handlePull (env : Env) : M Unit := do
  let r ← M.recover (handlePullBody env)
  if r.isNone then
    emit Event.errorf
  modifyCtx fun c => { c with cost := timeSince env c.start }
  runlog

/-! ## REPLY and `PullCmd` -/

/-- Lookup `pullCmdMap.Load(seq)`. -/
def mapLoad (m : List (Nat × Nat)) (seq : Nat) : Option Nat := m.lookup seq

/-- Removal `pullCmdMap.Delete(seq)`. -/
def mapDelete (m : List (Nat × Nat)) (seq : Nat) : List (Nat × Nat) :=
  m.filter fun e => !(e.1 == seq)

/-- Update the `PullCmd` object at pointer `p`. -/
def modifyCmd (p : Nat) (f : PullCmd → PullCmd) : M Unit :=
  M.modify fun s => { s with cmds := Function.update s.cmds p (f (s.cmds p)) }

/-- Channel send `ch <- p`: panics on a closed channel, enqueues when the
buffer has room, and otherwise parks the sender (no receiver is waiting in
this sequential model). -/
def chanSend (ch : Nat) (p : Nat) : M Unit := fun s =>
  let c := s.chans ch
  if c.closed then (Res.panic, s)
  else if c.buf.length < c.cap then
    (Res.ok (), { s with
      chans := Function.update s.chans ch { c with buf := c.buf ++ [p] },
      trace := s.trace ++ [Event.send ch p] })
  else (Res.block, s)

/-- Removal `p.sess.pullCmdMap.Delete(seq)`. -/
def sessMapDelete (seq : Nat) : M Unit :=
  M.modify fun s => { s with sess := { s.sess with pullCmdMap := mapDelete s.sess.pullCmdMap seq } }

/-- Go `sync.WaitGroup.Done()` on `gracePullCmdWaitGroup`: the counter is
decremented, and a negative counter panics. -/
def wgDone : M Unit := fun s =>
  let n := s.sess.gracePullCmdWaitGroup - 1
  let s1 := { s with sess := { s.sess with gracePullCmdWaitGroup := n } }
  if n < 0 then (Res.panic, s1) else (Res.ok (), s1)

/-- Method `PullCmd.cancel` (context.go 529-540) on the object at `p`; the
deferred `recover()` swallows any panic. -/
def PullCmd.cancel (env : Env) (p : Nat) : M Unit := do
  let _ ← M.recover (do
    modifyCmd p fun c =>
      { c with xerror := some (NewXerror env.StatusConnClosed (env.StatusText env.StatusConnClosed)) }
    let s ← M.get
    chanSend (s.cmds p).doneChan p
    sessMapDelete (s.cmds p).output.Header.Seq
    wgDone)
  pure ()

/-- Method `PullCmd.done` (context.go 542-552) on the object at `p`. -/
def PullCmd.done (p : Nat) : M Unit := do
  let _ ← M.recover (do
    let s ← M.get
    chanSend (s.cmds p).doneChan p
    sessMapDelete (s.cmds p).output.Header.Seq
    wgDone)
  pure ()

/-- Method `readHandleCtx.bindReply` (context.go 407-427). -/
def bindReply (env : Env) (header : Header) : M Body := do
  let sess ← derefSess
  match mapLoad sess.pullCmdMap header.Seq with
  | none =>
    emit Event.debugf
    return Body.nil
  | some p =>
  modifyCtx fun c => { c with pullCmd := some p }
  let s ← M.get
  modifyCtx fun c => { c with public := some (s.cmds p).public }
  match ← callHook env HookPoint.PostReadReplyHeader with
  | some xerr =>
    modifyCmd p fun c => { c with xerror := some xerr }
    return Body.nil
  | none =>
  match ← callHook env HookPoint.PreReadReplyBody with
  | some xerr =>
    modifyCmd p fun c => { c with xerror := some xerr }
    return Body.nil
  | none =>
  let s ← M.get
  return (s.cmds p).reply

/-- Body of `handleReply` after the nil check, without the deferred
function. -/
def handleReplyBody (env : Env) (p : Nat) : M Unit := do
  let s ← M.get
  if (s.cmds p).xerror.isSome then
    return ()
  if s.ctx.input.Header.StatusCode ≠ StatusOK then
    modifyCmd p fun c =>
      { c with xerror := some (NewXerror s.ctx.input.Header.StatusCode s.ctx.input.Header.Status) }
  else
    match ← callHook env HookPoint.PostReadReplyBody with
    | some xerr => modifyCmd p fun c => { c with xerror := some xerr }
    | none => pure ()

/-- Method `readHandleCtx.handleReply` (context.go 430-451). -/
def handleReply (env : Env) : M Unit := do
  let s ← M.get
  match s.ctx.pullCmd with
  | none =>
    emit Event.debugf
    return ()
  | some p =>
  let r ← M.recover (handleReplyBody env p)
  if r.isNone then
    emit Event.errorf
  PullCmd.done p
  modifyCmd p fun c => { c with cost := timeSince env c.start }
  runlog

/-! ## Dispatch -/

/-- Body of `binding`, without the deferred function. -/
def bindingBody (env : Env) (header : Header) : M Body := do
  modifyCtx fun c => { c with start := env.now }
  let sess ← derefSess
  modifyCtx fun c => { c with pluginContainer := sess.peerPluginContainer }
  if header.Typ = env.TypeReply then
    bindReply env header
  else if header.Typ = env.TypePush then
    bindPush env header
  else if header.Typ = env.TypePull then
    bindPull env header
  else
    return Body.nil

/-- Method `readHandleCtx.binding` (context.go 213-235): a panic is logged
and the body slot is nil. -/
def binding (env : Env) (header : Header) : M Body := do
  match ← M.recover (bindingBody env header) with
  | some body => return body
  | none =>
    emit Event.errorf
    return Body.nil

/-- Method `readHandleCtx.handle` (context.go 238-265). -/
def handle (env : Env) : M Unit := do
  let s ← M.get
  let t := s.ctx.input.Header.Typ
  if t = env.TypeReply then
    handleReply env
  else if t = env.TypePush then
    handlePush env
  else if t = env.TypePull then
    handlePull env
  else
    modifyOutHeader fun h => { h with StatusCode := env.StatusUnsupportedTx }
    modifyOutHeader fun h => { h with Status := env.StatusText env.StatusUnsupportedTx }
    let _ ← derefSess
    emit Event.errorf
    emit Event.sessClose

/-- Packets handed to `session.write`, oldest first. -/
def writes : List Event → List Packet
  | [] => []
  | Event.write p :: es => p :: writes es
  | _ :: es => writes es

/-- Handler thunks that were invoked, oldest first. -/
def handlerCalls : List Event → List Event
  | [] => []
  | Event.handleFunc h :: es => Event.handleFunc h :: handlerCalls es
  | Event.unknownHandleFunc h :: es => Event.unknownHandleFunc h :: handlerCalls es
  | _ :: es => handlerCalls es

/-- Channel sends that went through, oldest first: channel and `PullCmd`. -/
def sends : List Event → List (Nat × Nat)
  | [] => []
  | Event.send ch p :: es => (ch, p) :: sends es
  | _ :: es => sends es

/-- Hook calls that were made, oldest first: container and hook point. -/
def hookCalls : List Event → List (Nat × HookPoint)
  | [] => []
  | Event.hook pc pt :: es => (pc, pt) :: hookCalls es
  | _ :: es => hookCalls es

/-! ## Specification vocabulary -/

/-- Every run of `m` from a state satisfying `P` ends, whatever the way it
ends, in a state satisfying `Q`. -/
structure Triple {α : Type} (P : St → Prop) (m : M α) (Q : St → Prop) : Prop where
  run : ∀ s, P s → Q (m s).2

/-- The output packet answers `header`: kind REPLY, same sequence number,
same URI. -/
def AnswersTo (env : Env) (header : Header) (p : Packet) : Prop :=
  p.Header.Typ = env.TypeReply ∧ p.Header.Seq = header.Seq ∧ p.Header.Uri = header.Uri

/-- Invariant of PULL processing once the output header is prepared: the
output packet answers `header`, and so does every packet handed to the
session since the trace held the writes `w0`. -/
def PullInv (env : Env) (header : Header) (w0 : List Packet) (s : St) : Prop :=
  AnswersTo env header s.ctx.output ∧
  ∃ l, writes s.trace = w0 ++ l ∧ ∀ p ∈ l, AnswersTo env header p

/-! ## Sample inputs -/

/-- An empty packet, as a reset leaves it. -/
def emptyPacket : Packet :=
  { Header := { Seq := 0, Typ := 0, Uri := "", Gzip := 0, StatusCode := 0, Status := "" },
    HeaderCodec := "", BodyCodec := "", Body := Body.nil, Size := 0 }

/-- A cleaned context bound to session 1, with the plugin container 0 of the
peer. -/
def freshCtx : Ctx :=
  { sess := some 1, input := emptyPacket, output := emptyPacket, apiType := none, arg := none,
    pullCmd := none, uri := none, query := none, public := some [], start := 0, cost := 0,
    pluginContainer := some 0 }

/-- A pull of sequence number 7 waiting for its reply, with reply slot 42
and completion channel 3. -/
def pendingCmd : PullCmd :=
  { output := { emptyPacket with Header := { emptyPacket.Header with Seq := 7, Typ := 1 } },
    reply := Body.val 42, xerror := none, doneChan := 3, start := 0, cost := 0, public := [] }

/-- A session with one pending pull (sequence number 7, object 5) whose
completion channel 3 is open and empty with capacity 1. -/
def freshSt : St :=
  { ctx := freshCtx,
    sess := { pullCmdMap := [(7, 5)], gracePullCmdWaitGroup := 1, peerPluginContainer := some 0,
              printBody := false },
    cmds := fun _ => pendingCmd,
    chans := fun _ => { cap := 1, closed := false, buf := [] },
    trace := [] }

/-- Sample status texts. -/
def sampleStatusText (code : Int) : String :=
  if code = 200 then "OK" else if code = 404 then "Not Found" else "Error"

/-- An environment where every hook passes, no route is registered, every
URI parses to a path equal to itself, handlers return and writes succeed. -/
def quietEnv : Env :=
  { hook := fun _ _ => HookOutcome.pass,
    pushRouterGet := fun _ => Lookup.missing,
    pullRouterGet := fun _ => Lookup.missing,
    pullHandle := fun _ => PullOutcome.returns (Body.val 15) none none,
    unknownPullHandle := fun _ => PullOutcome.returns (Body.val 15) none none,
    pushHandle := fun _ => PushOutcome.returns,
    unknownPushHandle := fun _ => PushOutcome.returns,
    urlParse := fun uri => Except.ok { Path := uri, RawQuery := "" },
    write := fun _ => none,
    now := 0,
    since := fun _ => 0,
    StatusText := sampleStatusText,
    StatusBadUri := 400,
    StatusWriteFailed := 104,
    StatusConnClosed := 102,
    StatusUnsupportedTx := 415,
    StatusInternalServerError := 500,
    TypePull := 1,
    TypeReply := 2,
    TypePush := 3 }

/-- A PULL header with sequence number 9 for the path `/math/add`. -/
def pullHeader : Header :=
  { Seq := 9, Typ := 1, Uri := "/math/add", Gzip := 0, StatusCode := 0, Status := "" }

/-- A PUSH header with sequence number 4 for the path `/push/status`. -/
def pushHeader : Header :=
  { Seq := 4, Typ := 3, Uri := "/push/status", Gzip := 0, StatusCode := 0, Status := "" }

/-- A handler descriptor with thunk 8, argument type 2 and plugin
container 6. -/
def sampleHandler : Handler :=
  { id := 8, argElem := 2, isUnknown := false, pluginContainer := some 6 }

/-- The environment `quietEnv` with `sampleHandler` registered for every
path in both routers. -/
def routedEnv : Env :=
  { quietEnv with
    pushRouterGet := fun _ => Lookup.found sampleHandler,
    pullRouterGet := fun _ => Lookup.found sampleHandler }

/-- Invariant of PUSH processing: the packets handed to the session are
still `w0`. -/
def Quiet (w0 : List Packet) (s : St) : Prop := writes s.trace = w0

/-- The wire error returned by the sample hooks that reject a packet. -/
def forbidden : Xerror := { code := 403, text := "Forbidden" }

/-- The environment `routedEnv` with hook `pt` of every container failing
with `e`. -/
def failingHookEnv (pt : HookPoint) (e : Xerror) : Env :=
  { routedEnv with
    hook := fun _ q => if q = pt then HookOutcome.fail e else HookOutcome.pass }

/-- The environment `quietEnv` with a URI parser that rejects every URI. -/
def badUriEnv : Env :=
  { quietEnv with urlParse := fun _ => Except.error "invalid URI" }

/-- The environment `routedEnv` with handlers that panic. -/
def panicEnv : Env :=
  { routedEnv with
    pullHandle := fun _ => PullOutcome.panics,
    unknownPullHandle := fun _ => PullOutcome.panics,
    pushHandle := fun _ => PushOutcome.panics,
    unknownPushHandle := fun _ => PushOutcome.panics }

/-- The header hook of the peer container `pc` rejects the PULL with `e`,
and the pre-write hook of that container returns. -/
def PullRejectedAtHeader (env : Env) (pc : Nat) (e : Xerror) : Prop :=
  env.hook pc HookPoint.PostReadPullHeader = HookOutcome.fail e ∧
  env.hook pc HookPoint.PreWriteReply ≠ HookOutcome.panics

/-- The PULL is routed to a handler with container `hpc` whose hook
`pre_read_pull_body` rejects it with `e`, and the pre-write hook of that
container returns. -/
def PullRejectedBeforeBody (env : Env) (header : Header) (pc : Nat) (e : Xerror) : Prop :=
  ∃ u h hpc,
    env.hook pc HookPoint.PostReadPullHeader = HookOutcome.pass ∧
    env.urlParse header.Uri = Except.ok u ∧
    env.pullRouterGet u.Path = Lookup.found h ∧
    h.pluginContainer = some hpc ∧
    env.hook hpc HookPoint.PreReadPullBody = HookOutcome.fail e ∧
    env.hook hpc HookPoint.PreWriteReply ≠ HookOutcome.panics

/-- The PULL is routed to a handler with container `hpc`, binds with status
OK, and the hook `post_read_pull_body` rejects it with `e`; the pre-write
hook of that container returns. -/
def PullRejectedAfterBody (env : Env) (header : Header) (pc : Nat) (e : Xerror) : Prop :=
  ∃ u h hpc,
    env.hook pc HookPoint.PostReadPullHeader = HookOutcome.pass ∧
    env.urlParse header.Uri = Except.ok u ∧
    env.pullRouterGet u.Path = Lookup.found h ∧
    h.pluginContainer = some hpc ∧
    env.hook hpc HookPoint.PreReadPullBody = HookOutcome.pass ∧
    env.hook hpc HookPoint.PostReadPullBody = HookOutcome.fail e ∧
    env.hook hpc HookPoint.PreWriteReply ≠ HookOutcome.panics

/-- A wire error whose code is the status OK. -/
def okCoded : Xerror := { code := StatusOK, text := "blocked" }

/-- A REPLY header with sequence number 7 and status OK. -/
def replyHeader : Header :=
  { Seq := 7, Typ := 2, Uri := "/math/add", Gzip := 0, StatusCode := StatusOK, Status := "OK" }

/-- A REPLY header with sequence number 7 and status NOT_FOUND. -/
def notFoundReplyHeader : Header :=
  { Seq := 7, Typ := 2, Uri := "/math/add", Gzip := 0, StatusCode := StatusNotFound,
    Status := "Not Found" }

/-- The state `freshSt` after the header `h` was read into the input packet
of the context. -/
def stWithInput (h : Header) : St :=
  { freshSt with ctx := { freshCtx with input := { emptyPacket with Header := h } } }

/-! ## Peer configuration (config.go) -/

/-- Go `math.MaxInt64`. -/
def MaxInt64 : Int := 2 ^ 63 - 1

/-- The Go struct `PeerConfig`.  A `time.Duration` is a 64-bit signed count
of nanoseconds, here an integer. -/
structure PeerConfig where
  Network : String
  ListenAddress : String
  DefaultDialTimeout : Int
  RedialTimes : Int
  DefaultBodyCodec : String
  DefaultSessionAge : Int
  DefaultContextAge : Int
  SlowCometDuration : Int
  PrintBody : Bool
  CountTime : Bool
  slowCometDuration : Int
deriving DecidableEq, Repr

/-- The `switch p.Network` of `check` (config.go 69-75): the config after
the switch, or `none` on the `default` branch. -/
def PeerConfig.checkNetwork (p : PeerConfig) : Option PeerConfig :=
  if p.Network = "" then
    some { p with Network := "tcp" }
  else if p.Network = "tcp" ∨ p.Network = "tcp4" ∨ p.Network = "tcp6" ∨ p.Network = "unix"
      ∨ p.Network = "unixpacket" then
    some p
  else
    none

/-- Method `PeerConfig.check` (config.go 68-85): the config after the call
and the returned error, `none` for nil. -/
def PeerConfig.check (p : PeerConfig) : PeerConfig × Option String :=
  match p.checkNetwork with
  | none =>
    (p, some "Invalid network config, refer to the following: tcp, tcp4, tcp6, unix or unixpacket.")
  | some p1 =>
    let p2 := { p1 with slowCometDuration := MaxInt64 }
    let p3 := if p2.SlowCometDuration > 0 then
        { p2 with slowCometDuration := p2.SlowCometDuration } else p2
    let p4 := if p3.DefaultBodyCodec.length = 0 then
        { p3 with DefaultBodyCodec := "json" } else p3
    (p4, none)

/-- A config with only a listen address set. -/
def sampleConfig : PeerConfig :=
  { Network := "", ListenAddress := ":9090", DefaultDialTimeout := 0, RedialTimes := 0,
    DefaultBodyCodec := "", DefaultSessionAge := 0, DefaultContextAge := 0,
    SlowCometDuration := 0, PrintBody := false, CountTime := true, slowCometDuration := 0 }

/-! ## Context pooling: `reInit` and `clean` -/

/-- Method `goutil.Map.Store(key, value)` on the entries of a map: the value
of an existing key is replaced, a new key is added. -/
def mapStore : List (String × String) → String → String → List (String × String)
  | [], k, v => [(k, v)]
  | (k1, v1) :: rest, k, v =>
    if k1 = k then (k, v) :: rest else (k1, v1) :: mapStore rest k v

/-- The loop `src.Range(func(key, value) bool { dst.Store(key, value); return true })`. -/
def mapRangeStore (src dst : List (String × String)) : List (String × String) :=
  src.foldl (fun acc e => mapStore acc e.1 e.2) dst

/-- Method `readHandleCtx.reInit` (context.go 118-128) for the session
`sid`; `goutil.RwMap(count)` is an empty map. -/
def reInit (sid : Nat) : M Unit := do
  modifyCtx fun c => { c with sess := some sid }
  let s ← M.get
  let count := s.sess.socketPublic.length
  modifyCtx fun c => { c with public := some [] }
  if count > 0 then
    modifyCtx fun c => { c with public := c.public.map (mapRangeStore s.sess.socketPublic) }

/-- Modelled from the spec: `socket.Packet.Reset` is not under src/; a reset
packet is a packet with every field at its zero value. -/
def Packet.Reset (_ : Packet) : Packet :=
  { Header := { Seq := 0, Typ := 0, Uri := "", Gzip := 0, StatusCode := 0, Status := "" },
    HeaderCodec := "", BodyCodec := "", Body := Body.nil, Size := 0 }

/-- Method `readHandleCtx.clean` (context.go 130-142). -/
def clean : M Unit := do
  modifyCtx fun c => { c with sess := none }
  modifyCtx fun c => { c with apiType := none }
  modifyCtx fun c => { c with arg := none }
  modifyCtx fun c => { c with pullCmd := none }
  modifyCtx fun c => { c with public := none }
  modifyCtx fun c => { c with uri := none }
  modifyCtx fun c => { c with query := none }
  modifyCtx fun c => { c with cost := 0 }
  modifyCtx fun c => { c with pluginContainer := none }
  modifyCtx fun c => { c with input := c.input.Reset }
  modifyCtx fun c => { c with output := c.output.Reset }

/-- The state `freshSt` with two entries in the public map of the socket and
a stale entry in the public map of the context. -/
def socketPublicSt : St :=
  { freshSt with
    ctx := { freshCtx with sess := none, public := some [("stale", "entry")] },
    sess := { freshSt.sess with socketPublic := [("user", "alice"), ("role", "admin")] } }

/-- The environment `routedEnv` with the clock at 17. -/
def clockEnv : Env := { routedEnv with now := 17, since := fun _ => 3 }

/-- The state `freshSt` with room for two values in every channel. -/
def roomySt : St :=
  { freshSt with chans := fun _ => { cap := 2, closed := false, buf := [] } }

/-- The caller of a pull receives what is buffered in channel `ch` and
closes the channel. -/
def drainAndClose (ch : Nat) (s : St) : St :=
  { s with chans := Function.update s.chans ch { s.chans ch with closed := true, buf := [] } }

/-- No run of `m` ends parked on a channel. -/
structure NoBlock {α : Type} (m : M α) : Prop where
  run : ∀ s, (m s).1 ≠ Res.block

/-- The context is bound to session `sid`, and session, `PullCmd` objects
and channels are those of `s0`. -/
def Framed (sid : Nat) (s0 s : St) : Prop :=
  s.ctx.sess = some sid ∧ s.sess = s0.sess ∧ s.cmds = s0.cmds ∧ s.chans = s0.chans

/-- The context is bound to session `sid`. -/
def Bound (sid : Nat) (s : St) : Prop := s.ctx.sess = some sid

/-- The context is bound to session `sid`, the channels are those of `s0`,
and the `PullCmd` object `p` still completes on the channel it had in
`s0`. -/
def ReplyFramed (sid p : Nat) (s0 s : St) : Prop :=
  s.ctx.sess = some sid ∧ s.chans = s0.chans ∧ (s.cmds p).doneChan = (s0.cmds p).doneChan

/-- The environment `routedEnv` with hooks that panic. -/
def hookPanicEnv : Env := { routedEnv with hook := fun _ _ => HookOutcome.panics }

/-- The environment `quietEnv` with a hook `pre_write_reply` that panics in
every container; every other hook passes. -/
def preWritePanicEnv : Env :=
  { quietEnv with
    hook := fun _ q =>
      if q = HookPoint.PreWriteReply then HookOutcome.panics else HookOutcome.pass }

/-! ## Gzip transfer filter (xfer/gzip.go) -/

/-- Calls on the pools used by the filter: the writer pool `g.wPool`, the
reader pool `g.rPool` and the byte buffer pool of `utils`. -/
inductive PoolEvent where
  | wPoolGet | wPoolPut
  | acquireByteBuffer | releaseByteBuffer
  | rPoolGet | rPoolPut
deriving DecidableEq, Repr

/-- Behaviour of the standard library behind the filter, for a writer of
the level of the filter that was just reset onto a byte buffer, and a reader
that was just reset onto the source.

* `write src`: `gw.Write(src)`, the bytes it appends to the buffer, or its
  error.
* `flush src`: `gw.Flush()` after `gw.Write(src)`, the bytes it appends to
  the buffer, or its error.
* `reset src`: `gr.Reset(bytes.NewReader(src))`, its error, `none` for nil.
* `readAll src`: `ioutil.ReadAll(gr)` after that reset, the bytes read and
  the error, `none` for nil. -/
structure GzipLib where
  write : List UInt8 → Except String (List UInt8)
  flush : List UInt8 → Except String (List UInt8)
  reset : List UInt8 → Option String
  readAll : List UInt8 → List UInt8 × Option String

/-- Method `Gzip.OnPack` (gzip.go 75-98).  `bb` is the content of the byte
buffer handed out by `utils.AcquireByteBuffer()`.  The result is the pair
returned, `Except.error err` for `(nil, err)`, and the calls made on the
pools, the deferred `g.wPool.Put(gw)` last. -/
def Gzip.OnPack (lib : GzipLib) (bb : List UInt8) (src : List UInt8) :
    Except String (List UInt8) × List PoolEvent :=
  match lib.write src with
  | Except.error err =>
    (Except.error err,
      [PoolEvent.wPoolGet, PoolEvent.acquireByteBuffer, PoolEvent.releaseByteBuffer,
       PoolEvent.wPoolPut])
  | Except.ok w =>
    match lib.flush src with
    | Except.error err =>
      (Except.error err,
        [PoolEvent.wPoolGet, PoolEvent.acquireByteBuffer, PoolEvent.releaseByteBuffer,
         PoolEvent.wPoolPut])
    | Except.ok f =>
      (Except.ok (bb ++ w ++ f),
        [PoolEvent.wPoolGet, PoolEvent.acquireByteBuffer, PoolEvent.wPoolPut])

/-- Method `Gzip.OnUnpack` (gzip.go 102-115), with the calls made on the
pools, the deferred `g.rPool.Put(gr)` last. -/
def Gzip.OnUnpack (lib : GzipLib) (src : List UInt8) :
    Except String (List UInt8) × List PoolEvent :=
  if src.length = 0 then
    (Except.ok src, [])
  else
    match lib.reset src with
    | some err => (Except.error err, [PoolEvent.rPoolGet, PoolEvent.rPoolPut])
    | none => (Except.ok (lib.readAll src).1, [PoolEvent.rPoolGet, PoolEvent.rPoolPut])

/-- Every object taken by `get` was given back by `put`. -/
def Released (get put : PoolEvent) (log : List PoolEvent) : Prop :=
  log.count get = log.count put

/-- A stand-in for the library: the packed form of `src` is a two-byte
header followed by `src`; flushing adds nothing; reading gives back what
follows the header and ends with an error, the stream having no trailer. -/
def storedLib : GzipLib :=
  { write := fun src => Except.ok ([31, 139] ++ src),
    flush := fun _ => Except.ok [],
    reset := fun src => if src.take 2 = [31, 139] then none else some "gzip: invalid header",
    readAll := fun src => (src.drop 2, some "unexpected EOF") }

/-- A header whose type 9 is none of the three packet types. -/
def strangeHeader : Header :=
  { Seq := 5, Typ := 9, Uri := "/math/add", Gzip := 0, StatusCode := 0, Status := "" }

/-! ## Raw body of an unknown handler (context.go 453-473) -/

/-- Go `gzip.NoCompression`. -/
def NoCompression : Int := 0

/-- Method `readHandleCtx.InputBodyBytes` (context.go 454-460): the slice
behind the input body when that is a `*[]byte`, nil otherwise; the slice
behind `new([]byte)` is nil. -/
def InputBodyBytes : M (Option (List UInt8)) := do
  let s ← M.get
  match s.ctx.input.Body with
  | Body.bytesPtr b => pure b
  | Body.rawBytes => pure none
  | _ => pure none

/-- Method `readHandleCtx.Bind` (context.go 463-473): the codec name and
the error, `none` for nil. -/
def Bind (env : Env) (v : Body) : M (String × Option String) := do
  let b ← InputBodyBytes
  match b with
  | none => return ("", none)
  | some bytes =>
    let s ← M.get
    let r := env.unmarshal bytes v (decide (s.ctx.input.Header.Gzip ≠ NoCompression))
    if r.2.isNone then
      modifyCtx fun c => { c with input := { c.input with Body := v } }
    return r

/-- The state `freshSt` with the raw bytes `b` decoded into the input body
slot of an unknown handler. -/
def rawBodySt (b : List UInt8) : St :=
  { freshSt with
    ctx := { freshCtx with input := { emptyPacket with Body := Body.bytesPtr (some b) } } }

/-- The environment `quietEnv` with an unmarshaller that accepts bodies that
start with the byte 123 as "json" and rejects the others. -/
def jsonEnv : Env :=
  { quietEnv with
    unmarshal := fun b _ _ =>
      if b.head? = some 123 then ("json", none) else ("", some "invalid character") }

/-! ## Byte buffers and their pool (utils/bytebuffer.go) -/

/-- Go constant `minBitSize`. -/
def minBitSize : Nat := 6

/-- Go constant `steps`. -/
def steps : Nat := 20

/-- Go constant `minSize = 1 << minBitSize`. -/
def minSize : Nat := 1 <<< minBitSize

/-- Go constant `calibrateCallsThreshold`. -/
def calibrateCallsThreshold : Nat := 42000

/-- The loop `for n > 0 { n >>= 1; idx++ }` of `index`. -/
def indexLoop (n : Int) (idx : Nat) : Nat :=
  if 0 < n then indexLoop (n >>> (1 : Nat)) (idx + 1) else idx
termination_by n.toNat
decreasing_by
  have h2 : n >>> (1 : Nat) = n / 2 := by
    rw [Int.shiftRight_eq_div_pow]
    norm_num
  rw [h2]
  omega

/-- Function `index` (bytebuffer.go 314-326); `>>` on a Go `int` is the
arithmetic shift. -/
def index (n : Int) : Nat :=
  let n1 := n - 1
  let n2 := n1 >>> minBitSize
  let idx := indexLoop n2 0
  if idx ≥ steps then steps - 1 else idx

/-- The Go struct `ByteBuffer`: the slice `B` is its elements and its
capacity. -/
structure ByteBuffer where
  B : List UInt8
  cap : Nat
deriving DecidableEq, Repr

/-- Method `ByteBuffer.Len`. -/
def ByteBuffer.Len (b : ByteBuffer) : Nat := b.B.length

/-- Method `ByteBuffer.Reset`: `b.B = b.B[:0]`. -/
def ByteBuffer.Reset (b : ByteBuffer) : ByteBuffer := { b with B := [] }

/-- The Go struct `callSize`. -/
structure callSize where
  calls : Nat
  size : Nat
deriving DecidableEq, Repr

/-- What `calibrate` takes from outside `bytebuffer.go`: the order in which
`sort.Sort` leaves the call sizes (it is not a stable sort), and the
floating-point product `uint64(float64(callsSum) * maxPercentile)`. -/
structure CalibrateLib where
  sort : List callSize → List callSize
  percentile : Nat → Nat

/-- The Go struct `BufferPool`, in a sequential run: `pool` is what the
`sync.Pool` holds. -/
structure BufferPool where
  calls : List Nat
  calibrating : Nat
  defaultSize : Nat
  maxSize : Nat
  pool : List ByteBuffer
deriving DecidableEq, Repr

/-- The zero value of `BufferPool`, as `defaultBufferPool` starts. -/
def defaultBufferPool : BufferPool :=
  { calls := List.replicate steps 0, calibrating := 0, defaultSize := 0, maxSize := 0, pool := [] }

/-- The call sizes built by the first loop of `calibrate`, from index `i`
on: `callSize{calls: calls[i], size: minSize << i}`. -/
def callSizesFrom : Nat → List Nat → List callSize
  | _, [] => []
  | i, c :: cs => { calls := c, size := minSize <<< i } :: callSizesFrom (i + 1) cs

/-- The second loop of `calibrate` (bytebuffer.go 273-283): the largest
size among the leading call sizes whose calls sum to `maxSum` or less. -/
def calibrateLoop : List callSize → Nat → Nat → Nat → Nat
  | [], _, _, maxSize => maxSize
  | c :: cs, maxSum, callsSum, maxSize =>
    if callsSum > maxSum then maxSize
    else calibrateLoop cs maxSum (callsSum + c.calls) (if c.size > maxSize then c.size else maxSize)

/-- Method `BufferPool.calibrate` (bytebuffer.go 237-290). -/
def BufferPool.calibrate (lib : CalibrateLib) (p : BufferPool) : BufferPool :=
  if p.calibrating ≠ 0 then p
  else
    let a := lib.sort (callSizesFrom 0 p.calls)
    let callsSum := p.calls.sum
    let defaultSize := (a.headD { calls := 0, size := 0 }).size
    let maxSum := lib.percentile callsSum
    let maxSize := calibrateLoop a maxSum 0 defaultSize
    { p with calls := p.calls.map (fun _ => 0), defaultSize := defaultSize, maxSize := maxSize,
             calibrating := 0 }

/-- Go `atomic.AddUint64(&calls[idx], 1)`: the counters after the
addition. -/
def incrAt : List Nat → Nat → List Nat
  | [], _ => []
  | c :: cs, 0 => (c + 1) :: cs
  | c :: cs, i + 1 => c :: incrAt cs i

/-- Method `BufferPool.Get` (bytebuffer.go 189-197).  `pick` is what
`p.pool.Get()` returns: `none` for nil, `some i` for the pooled buffer at
position `i`, and nil when there is none. -/
def BufferPool.Get (p : BufferPool) (pick : Option Nat) : ByteBuffer × BufferPool :=
  match pick.bind (fun i => (p.pool.get? i).map (fun b => (i, b))) with
  | some (i, b) => (b, { p with pool := p.pool.eraseIdx i })
  | none => ({ B := [], cap := p.defaultSize }, p)

/-- Method `BufferPool.Put` (bytebuffer.go 211-234). -/
def BufferPool.Put (lib : CalibrateLib) (p : BufferPool) (b : ByteBuffer) : BufferPool :=
  let idx := index b.B.length
  let p1 := { p with calls := incrAt p.calls idx }
  let p2 := if p1.calls.getD idx 0 > calibrateCallsThreshold then p1.calibrate lib else p1
  let maxSize := p2.maxSize
  if maxSize = 0 ∨ b.cap ≤ maxSize then
    { p2 with pool := b.Reset :: p2.pool }
  else
    p2

/-- Function `AcquireByteBuffer` on the pool `defaultBufferPool`. -/
def AcquireByteBuffer (p : BufferPool) (pick : Option Nat) : ByteBuffer × BufferPool :=
  p.Get pick

/-- Function `ReleaseByteBuffer` on the pool `defaultBufferPool`. -/
def ReleaseByteBuffer (lib : CalibrateLib) (p : BufferPool) (b : ByteBuffer) : BufferPool :=
  p.Put lib b

/-- A call on the pool: `Put(b)` with the buffer as it is when released, or
`Get()` with what the `sync.Pool` picks. -/
inductive PoolOp where
  | Put (b : ByteBuffer)
  | Get (pick : Option Nat)
deriving DecidableEq, Repr

/-- A sequence of calls on the pool, the pooled buffers being left alone in
between: the pool at the end and the buffers returned by the `Get` calls, in
order. -/
def BufferPool.run (lib : CalibrateLib) : BufferPool → List PoolOp → BufferPool × List ByteBuffer
  | p, [] => (p, [])
  | p, PoolOp.Put b :: ops => BufferPool.run lib (p.Put lib b) ops
  | p, PoolOp.Get pick :: ops =>
    ((BufferPool.run lib (p.Get pick).2 ops).1,
      (p.Get pick).1 :: (BufferPool.run lib (p.Get pick).2 ops).2)

/-- Every pooled buffer has length zero. -/
def PoolClean (p : BufferPool) : Prop := ∀ b ∈ p.pool, b.B = []

/-- A stand-in for the sort and the percentile: the call sizes are left in
place and the percentile is the integer part of 95 percent. -/
def sampleCalibrateLib : CalibrateLib :=
  { sort := fun a => a, percentile := fun n => n * 95 / 100 }

/-- The bytes of the string written by `testByteBuf`. -/
def sampleBytes : List UInt8 := [49, 97, 102, 97, 119, 111, 101, 114, 105, 101, 119, 111, 114, 101, 119, 111]

/-- The calls of `testByteBuf` (test_pool.go 30-48): two new buffers are
written to and released, then two buffers are acquired, the pool handing out
what it holds. -/
def testByteBufOps : List PoolOp :=
  [PoolOp.Put { B := sampleBytes, cap := 16 }, PoolOp.Put { B := sampleBytes, cap := 16 },
   PoolOp.Get (some 0), PoolOp.Get (some 0)]

/-- Errors of `io.Reader.Read`: `io.EOF` or another error. -/
inductive ReadError where
  | EOF
  | other (msg : String)
deriving DecidableEq, Repr

/-- An `io.Reader` that delivers `data` over finitely many reads and then
ends with `final`: the next reads deliver at most the sizes in `chunks`
(zero included) with a nil error; after those, each read delivers as much of
the rest as fits, and the read that delivers the last of it reports
`final`. -/
structure Reader where
  data : List UInt8
  chunks : List Nat
  final : ReadError
deriving DecidableEq, Repr

/-- Method `r.Read(p)` for a slice `p` of length `k`: the bytes stored at
the start of `p`, the error, and the reader afterwards. -/
def Reader.Read (r : Reader) (k : Nat) : List UInt8 × Option ReadError × Reader :=
  match r.chunks with
  | c :: cs =>
    (r.data.take (min c k), none, { r with data := r.data.drop (min c k), chunks := cs })
  | [] =>
    if r.data.length ≤ k then
      (r.data, some r.final, { r with data := [] })
    else
      (r.data.take k, none, { r with data := r.data.drop k })

/-- The `for` loop of `ReadFrom` (bytebuffer.go 48-66), at most `fuel`
rounds of it: `p` is `p[:n]`, the bytes that count, and `nMax` the length of
the slice `p`.  The result is the buffer, the count and the error
returned; `none` when the rounds are used up. -/
def ByteBuffer.readLoop (nStart : Nat) :
    Nat → Reader → List UInt8 → Nat → Option (ByteBuffer × Nat × Option ReadError)
  | 0, _, _, _ => none
  | fuel + 1, r, p, nMax =>
    let n := p.length
    let nMax1 := if n = nMax then nMax * 2 else nMax
    let res := r.Read (nMax1 - n)
    let p1 := p ++ res.1
    match res.2.1 with
    | some err =>
      some ({ B := p1, cap := nMax1 }, p1.length - nStart,
        if err = ReadError.EOF then none else some err)
    | none => ByteBuffer.readLoop nStart fuel res.2.2 p1 nMax1

/-- Method `ByteBuffer.ReadFrom` (bytebuffer.go 35-67), with at most `fuel`
rounds of its loop. -/
def ByteBuffer.ReadFrom (fuel : Nat) (b : ByteBuffer) (r : Reader) :
    Option (ByteBuffer × Nat × Option ReadError) :=
  let p := b.B
  let nStart := p.length
  let nMax := b.cap
  let nMax1 := if nMax = 0 then 64 else nMax
  ByteBuffer.readLoop nStart fuel r p nMax1

/-- A reader of five bytes: a read of at most two bytes, an empty read, a
read of at most one byte, then the rest. -/
def sampleReader (final : ReadError) : Reader :=
  { data := [10, 20, 30, 40, 50], chunks := [2, 0, 1], final := final }

/-! # Theorems -/

/-! ## Basic lemmas -/

@[simp] theorem bind_apply {α β : Type} (m : M α) (f : α → M β) (s : St) :
    (m >>= f) s = M.bind m f s := rfl

@[simp] theorem pure_apply {α : Type} (a : α) (s : St) :
    (pure a : M α) s = (Res.ok a, s) := rfl

theorem writes_append (xs ys : List Event) : writes (xs ++ ys) = writes xs ++ writes ys := by
  induction xs with
  | nil => rfl
  | cons e es ih => cases e <;> simp [writes, ih]

theorem handlerCalls_append (xs ys : List Event) :
    handlerCalls (xs ++ ys) = handlerCalls xs ++ handlerCalls ys := by
  induction xs with
  | nil => rfl
  | cons e es ih => cases e <;> simp [handlerCalls, ih]

theorem sends_append (xs ys : List Event) : sends (xs ++ ys) = sends xs ++ sends ys := by
  induction xs with
  | nil => rfl
  | cons e es ih => cases e <;> simp [sends, ih]

theorem hookCalls_append (xs ys : List Event) :
    hookCalls (xs ++ ys) = hookCalls xs ++ hookCalls ys := by
  induction xs with
  | nil => rfl
  | cons e es ih => cases e <;> simp [hookCalls, ih]

theorem mapLoad_mapDelete (m : List (Nat × Nat)) (seq : Nat) :
    mapLoad (mapDelete m seq) seq = none := by
  induction m with
  | nil => rfl
  | cons e es ih =>
    obtain ⟨k, v⟩ := e
    by_cases hk : k = seq
    · simpa [mapDelete, mapLoad, List.filter_cons, hk] using ih
    · have hk2 : ¬ seq = k := fun h => hk h.symm
      have hb : (seq == k) = false := by simpa using hk2
      simpa [mapDelete, mapLoad, List.filter_cons, hk, List.lookup_cons, hb] using ih

theorem mapLoad_mapDelete_ne (m : List (Nat × Nat)) (seq k : Nat) (h : k ≠ seq) :
    mapLoad (mapDelete m seq) k = mapLoad m k := by
  induction m with
  | nil => rfl
  | cons e es ih =>
    obtain ⟨j, v⟩ := e
    by_cases hj : j = seq
    · subst hj
      have hb : (k == j) = false := by simpa using h
      simpa [mapDelete, mapLoad, List.filter_cons, List.lookup_cons, hb] using ih
    · by_cases hkj : k = j
      · simp [mapDelete, mapLoad, List.filter_cons, hj, List.lookup_cons, hkj]
      · have hb : (k == j) = false := by simpa using hkj
        simpa [mapDelete, mapLoad, List.filter_cons, hj, List.lookup_cons, hb] using ih

/-- When the output status is not OK, `handlePull` skips the handler and
hands the output packet, as it stands, to the session. -/
theorem handlePull_not_ok (env : Env) (s : St) (pc sid : Nat)
    (hpc : s.ctx.pluginContainer = some pc) (hs : s.ctx.sess = some sid)
    (hst : s.ctx.output.Header.StatusCode ≠ StatusOK)
    (hpre : env.hook pc HookPoint.PreWriteReply ≠ HookOutcome.panics) :
    (handlePull env s).1 = Res.ok () ∧
    handlerCalls (handlePull env s).2.trace = handlerCalls s.trace ∧
    writes (handlePull env s).2.trace = writes s.trace ++ [s.ctx.output] := by
  rcases h5 : env.hook pc HookPoint.PreWriteReply with _ | e | _
  case panics => exact absurd h5 hpre
  all_goals
    rcases hw : env.write s.ctx.output with _ | err <;>
    rcases h6 : env.hook pc HookPoint.PostWriteReply with _ | e2 | _ <;>
    simp [handlePull, handlePullBody, M.recover, M.bind, M.get, hst, callHook, hpc, h5, h6, hw,
      sessWrite, derefSess, hs, emit, M.modify, modifyOutHeader, modifyCtx, runlog,
      writes_append, handlerCalls_append, writes, handlerCalls]

/-! ## State invariants along a computation -/

theorem triple_bind {α β : Type} {P Q R : St → Prop} {m : M α} {f : α → M β}
    (hQR : ∀ s, R s → Q s) (hm : Triple P m R) (hf : ∀ a, Triple R (f a) Q) :
    Triple P (m >>= f) Q := by
  constructor
  intro s hs
  have h1 := hm.run s hs
  simp only [bind_apply, M.bind]
  rcases hms : m s with ⟨r, s1⟩
  rw [hms] at h1
  cases r with
  | ok a => exact (hf a).run s1 h1
  | panic => exact hQR _ h1
  | block => exact hQR _ h1

theorem triple_seq {α β : Type} {P : St → Prop} {m : M α} {f : α → M β}
    (hm : Triple P m P) (hf : ∀ a, Triple P (f a) P) : Triple P (m >>= f) P :=
  triple_bind (fun _ h => h) hm hf

theorem triple_pure {α : Type} {P : St → Prop} (a : α) : Triple P (pure a : M α) P :=
  ⟨fun _ hs => hs⟩

theorem triple_recover {α : Type} {P Q : St → Prop} {m : M α} (hm : Triple P m Q) :
    Triple P (M.recover m) Q := by
  constructor
  intro s hs
  have h1 := hm.run s hs
  simp only [M.recover]
  rcases hms : m s with ⟨r, s1⟩
  rw [hms] at h1
  cases r <;> exact h1

theorem triple_panic {α : Type} {P : St → Prop} : Triple P (M.panic : M α) P :=
  ⟨fun _ hs => hs⟩

theorem triple_get_bind {β : Type} {P Q : St → Prop} {f : St → M β}
    (hf : ∀ s0, P s0 → Triple P (f s0) Q) : Triple P (M.get >>= f) Q :=
  ⟨fun s hs => (hf s hs).run s hs⟩

theorem triple_modify {P Q : St → Prop} {f : St → St} (hf : ∀ s, P s → Q (f s)) :
    Triple P (M.modify f) Q :=
  ⟨fun s hs => hf s hs⟩

theorem triple_derefSess {P : St → Prop} : Triple P derefSess P := by
  constructor
  intro s hs
  simp only [Teleport.derefSess]
  split <;> exact hs

theorem triple_derefApiType {P : St → Prop} : Triple P derefApiType P := by
  constructor
  intro s hs
  simp only [Teleport.derefApiType]
  split <;> exact hs

theorem triple_derefUri {P : St → Prop} : Triple P derefUri P := by
  constructor
  intro s hs
  simp only [Teleport.derefUri]
  split <;> exact hs

theorem pullInv_output {env : Env} {header : Header} {w0 : List Packet} {s : St}
    (h : PullInv env header w0 s) : AnswersTo env header s.ctx.output := h.1

theorem pullInv_modify (env : Env) (header : Header) (w0 : List Packet) (f : St → St)
    (h1 : ∀ s, (f s).ctx.output.Header.Typ = s.ctx.output.Header.Typ)
    (h2 : ∀ s, (f s).ctx.output.Header.Seq = s.ctx.output.Header.Seq)
    (h3 : ∀ s, (f s).ctx.output.Header.Uri = s.ctx.output.Header.Uri)
    (h4 : ∀ s, writes (f s).trace = writes s.trace) :
    Triple (PullInv env header w0) (M.modify f) (PullInv env header w0) := by
  constructor
  intro s hs
  simp only [M.modify, PullInv, AnswersTo] at hs ⊢
  rw [h1, h2, h3, h4]
  exact hs

theorem pullInv_modifyCtx (env : Env) (header : Header) (w0 : List Packet) (f : Ctx → Ctx)
    (h : ∀ c, (f c).output.Header = c.output.Header) :
    Triple (PullInv env header w0) (modifyCtx f) (PullInv env header w0) := by
  apply pullInv_modify <;> intro s <;> simp [h]

theorem pullInv_modifyOutHeader (env : Env) (header : Header) (w0 : List Packet) (f : Header → Header)
    (h1 : ∀ h, (f h).Typ = h.Typ) (h2 : ∀ h, (f h).Seq = h.Seq) (h3 : ∀ h, (f h).Uri = h.Uri) :
    Triple (PullInv env header w0) (modifyOutHeader f) (PullInv env header w0) := by
  apply pullInv_modify <;> intro s <;> simp [h1, h2, h3]

theorem pullInv_emit (env : Env) (header : Header) (w0 : List Packet) (e : Event)
    (he : writes [e] = []) :
    Triple (PullInv env header w0) (emit e) (PullInv env header w0) := by
  apply pullInv_modify <;> intro s <;> simp [writes_append, he]

theorem pullInv_callHook (env : Env) (header : Header) (w0 : List Packet) (pt : HookPoint) :
    Triple (PullInv env header w0) (callHook env pt) (PullInv env header w0) := by
  constructor
  intro s hs
  simp only [Teleport.callHook]
  split
  · exact hs
  · split <;> simpa [PullInv, writes_append, writes] using hs

theorem pullInv_sessWrite (env : Env) (header : Header) (w0 : List Packet) (p : Packet)
    (hp : AnswersTo env header p) :
    Triple (PullInv env header w0) (sessWrite env p) (PullInv env header w0) := by
  constructor
  intro s hs
  obtain ⟨ho, l, hl, hall⟩ := hs
  cases hsess : s.ctx.sess with
  | none => simpa [Teleport.sessWrite, derefSess, M.bind, hsess, PullInv] using ⟨ho, l, hl, hall⟩
  | some sid =>
    simp only [Teleport.sessWrite, derefSess, M.bind, hsess, PullInv, Teleport.emit, M.modify,
      bind_apply, pure_apply, writes_append, writes, hl]
    refine ⟨ho, l ++ [p], by simp, ?_⟩
    intro q hq
    rcases List.mem_append.mp hq with h | h
    · exact hall q h
    · simp at h
      exact h ▸ hp

theorem pullInv_pullReturn (env : Env) (header : Header) (w0 : List Packet) (body : Body)
    (xerr : Option Xerror) (codec : Option String) :
    Triple (PullInv env header w0) (pullReturn body xerr codec) (PullInv env header w0) := by
  unfold Teleport.pullReturn
  dsimp only
  repeat' first
    | exact triple_pure _
    | (apply pullInv_modifyCtx; intro c; rfl)
    | (apply pullInv_modifyOutHeader <;> intro h <;> rfl)
    | with_reducible apply triple_seq
    | intro _
    | split

theorem pullInv_handlePullBody (env : Env) (header : Header) (w0 : List Packet) :
    Triple (PullInv env header w0) (handlePullBody env) (PullInv env header w0) := by
  unfold Teleport.handlePullBody
  apply triple_get_bind
  intro s0 hs0
  dsimp only
  repeat' first
    | exact triple_pure _
    | exact triple_panic
    | ((with_reducible apply triple_get_bind); intro s hs)
    | ((with_reducible apply pullInv_sessWrite); exact pullInv_output (by assumption))
    | with_reducible apply pullInv_callHook
    | with_reducible apply triple_derefApiType
    | ((with_reducible apply pullInv_modifyOutHeader) <;> intro h <;> rfl)
    | ((with_reducible apply pullInv_emit); rfl)
    | with_reducible apply pullInv_pullReturn
    | unfold pullUnknownHandleFunc
    | unfold pullHandleFunc
    | with_reducible apply triple_seq
    | intro _
    | split

theorem pullInv_handlePull (env : Env) (header : Header) (w0 : List Packet) :
    Triple (PullInv env header w0) (handlePull env) (PullInv env header w0) := by
  unfold Teleport.handlePull runlog
  repeat' first
    | exact triple_pure _
    | with_reducible exact triple_recover (pullInv_handlePullBody env header w0)
    | with_reducible apply triple_derefSess
    | ((with_reducible apply pullInv_modifyCtx); intro c; rfl)
    | ((with_reducible apply pullInv_emit); rfl)
    | with_reducible apply triple_seq
    | intro _
    | split

theorem triple_modify_bind {β : Type} {P R Q : St → Prop} {f : St → St} {g : Unit → M β}
    (hf : ∀ s, P s → R (f s)) (hg : Triple R (g ()) Q) : Triple P (M.modify f >>= g) Q :=
  ⟨fun s hs => hg.run (f s) (hf s hs)⟩

theorem pullInv_bindPull (env : Env) (header : Header) (w0 : List Packet) :
    Triple (fun s => writes s.trace = w0) (bindPull env header) (PullInv env header w0) := by
  unfold Teleport.bindPull
  apply triple_modify_bind
    (R := fun s => writes s.trace = w0 ∧ s.ctx.output.Header.Seq = header.Seq)
  · intro s hs
    exact ⟨hs, rfl⟩
  apply triple_modify_bind
    (R := fun s => writes s.trace = w0 ∧ s.ctx.output.Header.Seq = header.Seq ∧
      s.ctx.output.Header.Typ = env.TypeReply)
  · intro s hs
    exact ⟨hs.1, hs.2, rfl⟩
  apply triple_modify_bind (R := PullInv env header w0)
  · intro s hs
    exact ⟨⟨hs.2.2, hs.2.1, rfl⟩, [], by simpa using hs.1, by simp⟩
  dsimp only
  repeat' first
    | exact triple_pure _
    | exact triple_panic
    | ((with_reducible apply triple_get_bind); intro s hs)
    | with_reducible apply pullInv_callHook
    | with_reducible apply triple_derefApiType
    | with_reducible apply triple_derefSess
    | with_reducible apply triple_derefUri
    | ((with_reducible apply pullInv_modifyCtx); intro c; rfl)
    | ((with_reducible apply pullInv_modifyOutHeader) <;> intro h <;> rfl)
    | ((with_reducible apply pullInv_emit); rfl)
    | unfold Teleport.urlParse
    | unfold Teleport.pullRouterGet
    | unfold Teleport.Path
    | with_reducible apply triple_seq
    | intro _
    | split

/-! ## Claims -/

/-- C1, as amended: a PULL whose header hook passes, whose URI parses and
whose path the pull router does not know gets no body slot from `bindPull`,
which sets the reply status to NOT_FOUND with its status text; `handlePull`
then invokes no handler and, when the hook `pre_write_reply` does not panic,
hands exactly that reply to the session. -/
theorem pull_unknown_route_replies_not_found (env : Env) (header : Header) (s : St)
    (pc sid : Nat) (u : URL)
    (hpc : s.ctx.pluginContainer = some pc) (hs : s.ctx.sess = some sid)
    (hhook : env.hook pc HookPoint.PostReadPullHeader = HookOutcome.pass)
    (huri : env.urlParse header.Uri = Except.ok u)
    (hroute : env.pullRouterGet u.Path = Lookup.missing)
    (hpre : env.hook pc HookPoint.PreWriteReply ≠ HookOutcome.panics) :
    (bindPull env header s).1 = Res.ok Body.nil ∧
    (bindPull env header s).2.ctx.output.Header.StatusCode = StatusNotFound ∧
    (bindPull env header s).2.ctx.output.Header.Status = env.StatusText StatusNotFound ∧
    (handlePull env (bindPull env header s).2).1 = Res.ok () ∧
    handlerCalls (handlePull env (bindPull env header s).2).2.trace = handlerCalls s.trace ∧
    writes (handlePull env (bindPull env header s).2).2.trace
      = writes s.trace ++ [(bindPull env header s).2.ctx.output] := by
  have hb : bindPull env header s = (Res.ok Body.nil,
      { s with
        ctx := { s.ctx with
          uri := some u, apiType := none,
          output := { s.ctx.output with
            HeaderCodec := s.ctx.input.HeaderCodec
            Header := { s.ctx.output.Header with
              Seq := header.Seq, Typ := env.TypeReply, Uri := header.Uri, Gzip := header.Gzip,
              StatusCode := StatusNotFound, Status := env.StatusText StatusNotFound } } },
        trace := s.trace ++ [Event.hook pc HookPoint.PostReadPullHeader,
          Event.urlParse header.Uri, Event.pullRouterGet u.Path] }) := by
    simp [bindPull, M.bind, modifyOutHeader, modifyCtx, M.modify, callHook, hpc, hhook, urlParse,
      emit, huri, Path, derefUri, pullRouterGet, derefSess, hs, hroute]
  have h := handlePull_not_ok env (bindPull env header s).2 pc sid
    (by rw [hb]; exact hpc) (by rw [hb]; exact hs)
    (by rw [hb]; show StatusNotFound ≠ StatusOK; decide) hpre
  have hc : handlerCalls (bindPull env header s).2.trace = handlerCalls s.trace := by
    rw [hb]; simp [handlerCalls_append, handlerCalls]
  have hw : writes (bindPull env header s).2.trace = writes s.trace := by
    rw [hb]; simp [writes_append, writes]
  refine ⟨by rw [hb], by rw [hb], by rw [hb], h.1, ?_, ?_⟩
  · rw [h.2.1, hc]
  · rw [h.2.2, hw]

/-- C1, as amended, at a sample input: the path `/math/add` is not
registered. -/
theorem pull_unknown_route_replies_not_found_witness :
    (bindPull quietEnv pullHeader freshSt).1 = Res.ok Body.nil ∧
    (bindPull quietEnv pullHeader freshSt).2.ctx.output.Header.StatusCode = StatusNotFound ∧
    (bindPull quietEnv pullHeader freshSt).2.ctx.output.Header.Status
      = quietEnv.StatusText StatusNotFound ∧
    (handlePull quietEnv (bindPull quietEnv pullHeader freshSt).2).1 = Res.ok () ∧
    handlerCalls (handlePull quietEnv (bindPull quietEnv pullHeader freshSt).2).2.trace
      = handlerCalls freshSt.trace ∧
    writes (handlePull quietEnv (bindPull quietEnv pullHeader freshSt).2).2.trace
      = writes freshSt.trace ++ [(bindPull quietEnv pullHeader freshSt).2.ctx.output] :=
  pull_unknown_route_replies_not_found quietEnv pullHeader freshSt 0 1
    { Path := "/math/add", RawQuery := "" } rfl rfl rfl rfl rfl (by decide)

/-- C1 fails as stated: the header hook passes, the URI parses and the path
is not registered, so `bindPull` returns no body slot and sets NOT_FOUND; the
hook `pre_write_reply` then panics inside `handlePull` (context.go 397), the
deferred function recovers and logs, and no packet is handed to the
session. -/
theorem pull_not_found_reply_lost_to_hook_panic :
    preWritePanicEnv.hook 0 HookPoint.PostReadPullHeader = HookOutcome.pass ∧
    preWritePanicEnv.urlParse pullHeader.Uri
      = Except.ok { Path := "/math/add", RawQuery := "" } ∧
    preWritePanicEnv.pullRouterGet "/math/add" = Lookup.missing ∧
    (bindPull preWritePanicEnv pullHeader freshSt).1 = Res.ok Body.nil ∧
    (bindPull preWritePanicEnv pullHeader freshSt).2.ctx.output.Header.StatusCode
      = StatusNotFound ∧
    (handlePull preWritePanicEnv (bindPull preWritePanicEnv pullHeader freshSt).2).1
      = Res.ok () ∧
    (handlePull preWritePanicEnv (bindPull preWritePanicEnv pullHeader freshSt).2).2.trace
      = [Event.hook 0 HookPoint.PostReadPullHeader, Event.urlParse "/math/add",
         Event.pullRouterGet "/math/add", Event.hook 0 HookPoint.PreWriteReply,
         Event.errorf, Event.runlog] ∧
    writes (handlePull preWritePanicEnv (bindPull preWritePanicEnv pullHeader freshSt).2).2.trace
      = [] := by
  refine ⟨rfl, rfl, rfl, rfl, rfl, rfl, ?_, ?_⟩ <;> rfl

/-- C2: whatever the hooks, the URI parser, the router, the handler and the
session do, the output packet prepared by `bindPull` for a PULL header has
kind REPLY, the sequence number of the header and the URI of the header,
and so has every packet that `handlePull` then hands to the session. -/
theorem pull_reply_echoes_header (env : Env) (header : Header) (s : St) :
    ((bindPull env header s).2.ctx.output.Header.Typ = env.TypeReply ∧
     (bindPull env header s).2.ctx.output.Header.Seq = header.Seq ∧
     (bindPull env header s).2.ctx.output.Header.Uri = header.Uri) ∧
    ∃ l, writes (handlePull env (bindPull env header s).2).2.trace = writes s.trace ++ l ∧
      ∀ p ∈ l, p.Header.Typ = env.TypeReply ∧ p.Header.Seq = header.Seq ∧
        p.Header.Uri = header.Uri := by
  have h1 := (pullInv_bindPull env header (writes s.trace)).run s rfl
  have h2 := (pullInv_handlePull env header (writes s.trace)).run _ h1
  exact ⟨h1.1, h2.2⟩

/-! ### PUSH never writes -/

theorem quiet_modify (w0 : List Packet) (f : St → St)
    (h : ∀ s, writes (f s).trace = writes s.trace) :
    Triple (Quiet w0) (M.modify f) (Quiet w0) := by
  constructor
  intro s hs
  simp only [M.modify, Quiet] at hs ⊢
  rw [h]
  exact hs

theorem quiet_modifyCtx (w0 : List Packet) (f : Ctx → Ctx) :
    Triple (Quiet w0) (modifyCtx f) (Quiet w0) :=
  quiet_modify w0 _ fun _ => rfl

theorem quiet_emit (w0 : List Packet) (e : Event) (he : writes [e] = []) :
    Triple (Quiet w0) (emit e) (Quiet w0) := by
  apply quiet_modify
  intro s
  simp [writes_append, he]

theorem quiet_callHook (env : Env) (w0 : List Packet) (pt : HookPoint) :
    Triple (Quiet w0) (callHook env pt) (Quiet w0) := by
  constructor
  intro s hs
  simp only [Teleport.callHook]
  split
  · exact hs
  · split <;> simpa [Quiet, writes_append, writes] using hs

theorem quiet_bindPush (env : Env) (header : Header) (w0 : List Packet) :
    Triple (Quiet w0) (bindPush env header) (Quiet w0) := by
  unfold Teleport.bindPush
  dsimp only
  repeat' first
    | exact triple_pure _
    | exact triple_panic
    | ((with_reducible apply triple_get_bind); intro s hs)
    | with_reducible apply quiet_callHook
    | with_reducible apply triple_derefApiType
    | with_reducible apply triple_derefSess
    | with_reducible apply triple_derefUri
    | with_reducible apply quiet_modifyCtx
    | ((with_reducible apply quiet_emit); rfl)
    | unfold Teleport.urlParse
    | unfold Teleport.pushRouterGet
    | unfold Teleport.Path
    | with_reducible apply triple_seq
    | intro _
    | split

theorem quiet_handlePushBody (env : Env) (w0 : List Packet) :
    Triple (Quiet w0) (handlePushBody env) (Quiet w0) := by
  unfold Teleport.handlePushBody
  dsimp only
  repeat' first
    | exact triple_pure _
    | exact triple_panic
    | ((with_reducible apply triple_get_bind); intro s hs)
    | with_reducible apply quiet_callHook
    | with_reducible apply triple_derefApiType
    | ((with_reducible apply quiet_emit); rfl)
    | unfold pushUnknownHandleFunc
    | unfold pushHandleFunc
    | with_reducible apply triple_seq
    | intro _
    | split

theorem quiet_handlePush (env : Env) (w0 : List Packet) :
    Triple (Quiet w0) (handlePush env) (Quiet w0) := by
  unfold Teleport.handlePush runlog
  repeat' first
    | exact triple_pure _
    | with_reducible exact triple_recover (quiet_handlePushBody env w0)
    | with_reducible apply triple_derefSess
    | with_reducible apply quiet_modifyCtx
    | ((with_reducible apply quiet_emit); rfl)
    | with_reducible apply triple_seq
    | intro _
    | split

/-- C5: whatever the hooks, the URI parser, the router and the handler do
(a panic included), `bindPush` followed by `handlePush` hands no packet to
the session: no REPLY is produced for a PUSH. -/
theorem push_never_writes (env : Env) (header : Header) (s : St) :
    writes (bindPush env header s).2.trace = writes s.trace ∧
    writes (handlePush env (bindPush env header s).2).2.trace = writes s.trace := by
  have h1 := (quiet_bindPush env header (writes s.trace)).run s rfl
  have h2 := (quiet_handlePush env (writes s.trace)).run _ h1
  exact ⟨h1, h2⟩

/-! ### PUSH dropped before dispatch -/

/-- With no handler descriptor in the context, `handlePush` only writes the
run-log. -/
theorem handlePush_no_descriptor (env : Env) (s : St) (sid : Nat)
    (hapi : s.ctx.apiType = none) (hs : s.ctx.sess = some sid) :
    (handlePush env s).1 = Res.ok () ∧
    (handlePush env s).2.trace = s.trace ++ [Event.runlog] := by
  simp [handlePush, handlePushBody, M.recover, M.bind, M.get, hapi, modifyCtx, M.modify, runlog,
    derefSess, hs, emit]

/-- What `bindPush` leaves behind when it stops before a descriptor is
stored. -/
theorem bindPush_dropped (env : Env) (header : Header) (s : St) (pc sid : Nat)
    (hpc : s.ctx.pluginContainer = some pc) (hs : s.ctx.sess = some sid)
    (hapi : s.ctx.apiType = none)
    (hcase :
      (∃ e, env.hook pc HookPoint.PostReadPushHeader = HookOutcome.fail e) ∨
      (env.hook pc HookPoint.PostReadPushHeader = HookOutcome.pass ∧
        ∃ msg, env.urlParse header.Uri = Except.error msg) ∨
      (env.hook pc HookPoint.PostReadPushHeader = HookOutcome.pass ∧
        ∃ u, env.urlParse header.Uri = Except.ok u ∧
          env.pushRouterGet u.Path = Lookup.missing)) :
    (bindPush env header s).1 = Res.ok Body.nil ∧
    (bindPush env header s).2.ctx.apiType = none ∧
    (bindPush env header s).2.ctx.sess = some sid ∧
    handlerCalls (bindPush env header s).2.trace = handlerCalls s.trace ∧
    hookCalls (bindPush env header s).2.trace
      = hookCalls s.trace ++ [(pc, HookPoint.PostReadPushHeader)] := by
  rcases hcase with ⟨e, he⟩ | ⟨hp, msg, hm⟩ | ⟨hp, u, hu, hr⟩
  · simp [bindPush, M.bind, callHook, hpc, he, hapi, hs, handlerCalls_append, handlerCalls,
      hookCalls_append, hookCalls]
  · simp [bindPush, M.bind, callHook, hpc, hp, urlParse, emit, M.modify, hm, modifyCtx, hapi, hs,
      handlerCalls_append, handlerCalls, hookCalls_append, hookCalls]
  · simp [bindPush, M.bind, callHook, hpc, hp, urlParse, emit, M.modify, hu, modifyCtx, hs,
      Path, derefUri, pushRouterGet, derefSess, hr, handlerCalls_append, handlerCalls,
      hookCalls_append, hookCalls]

/-- C6: when the header hook of a PUSH returns a wire error, or its URI does
not parse, or its path is not in the push router, `bindPush` returns no body
slot and `handlePush` then calls nothing but the run-log: neither a typed
handler, nor an unknown handler, nor the hook `post_read_push_body`. -/
theorem push_dropped_before_dispatch (env : Env) (header : Header) (s : St) (pc sid : Nat)
    (hpc : s.ctx.pluginContainer = some pc) (hs : s.ctx.sess = some sid)
    (hapi : s.ctx.apiType = none)
    (hcase :
      (∃ e, env.hook pc HookPoint.PostReadPushHeader = HookOutcome.fail e) ∨
      (env.hook pc HookPoint.PostReadPushHeader = HookOutcome.pass ∧
        ∃ msg, env.urlParse header.Uri = Except.error msg) ∨
      (env.hook pc HookPoint.PostReadPushHeader = HookOutcome.pass ∧
        ∃ u, env.urlParse header.Uri = Except.ok u ∧
          env.pushRouterGet u.Path = Lookup.missing)) :
    (bindPush env header s).1 = Res.ok Body.nil ∧
    (handlePush env (bindPush env header s).2).1 = Res.ok () ∧
    (handlePush env (bindPush env header s).2).2.trace
      = (bindPush env header s).2.trace ++ [Event.runlog] ∧
    handlerCalls (handlePush env (bindPush env header s).2).2.trace = handlerCalls s.trace ∧
    hookCalls (handlePush env (bindPush env header s).2).2.trace
      = hookCalls s.trace ++ [(pc, HookPoint.PostReadPushHeader)] := by
  obtain ⟨h1, h2, h3, h4, h5⟩ := bindPush_dropped env header s pc sid hpc hs hapi hcase
  obtain ⟨h6, h7⟩ := handlePush_no_descriptor env (bindPush env header s).2 sid h2 h3
  refine ⟨h1, h6, h7, ?_, ?_⟩
  · rw [h7, handlerCalls_append, h4]; simp [handlerCalls]
  · rw [h7, hookCalls_append, h5]; simp [hookCalls]

/-- C6, at three sample inputs: the header hook rejects the push, the URI
does not parse, the path is not registered. -/
theorem push_dropped_before_dispatch_witness :
    (handlePush (failingHookEnv HookPoint.PostReadPushHeader forbidden)
        (bindPush (failingHookEnv HookPoint.PostReadPushHeader forbidden) pushHeader freshSt).2).2.trace
      = (bindPush (failingHookEnv HookPoint.PostReadPushHeader forbidden) pushHeader freshSt).2.trace
        ++ [Event.runlog] ∧
    (handlePush badUriEnv (bindPush badUriEnv pushHeader freshSt).2).2.trace
      = (bindPush badUriEnv pushHeader freshSt).2.trace ++ [Event.runlog] ∧
    (handlePush quietEnv (bindPush quietEnv pushHeader freshSt).2).2.trace
      = (bindPush quietEnv pushHeader freshSt).2.trace ++ [Event.runlog] :=
  ⟨(push_dropped_before_dispatch (failingHookEnv HookPoint.PostReadPushHeader forbidden)
      pushHeader freshSt 0 1 rfl rfl rfl (Or.inl ⟨forbidden, rfl⟩)).2.2.1,
   (push_dropped_before_dispatch badUriEnv pushHeader freshSt 0 1 rfl rfl rfl
      (Or.inr (Or.inl ⟨rfl, "invalid URI", rfl⟩))).2.2.1,
   (push_dropped_before_dispatch quietEnv pushHeader freshSt 0 1 rfl rfl rfl
      (Or.inr (Or.inr ⟨rfl, { Path := "/push/status", RawQuery := "" }, rfl, rfl⟩))).2.2.1⟩

/-- C7, at the failing input: the route of the PUSH is found and the hook
`pre_read_push_body` returns a wire error; `bindPush` returns no body slot,
and `handlePush` still runs `post_read_push_body` and invokes the push
handler, because the descriptor stored by `bindPush` is not nil. -/
theorem push_pre_body_error_still_dispatches :
    (failingHookEnv HookPoint.PreReadPushBody forbidden).pushRouterGet "/push/status"
      = Lookup.found sampleHandler ∧
    (failingHookEnv HookPoint.PreReadPushBody forbidden).hook 6 HookPoint.PreReadPushBody
      = HookOutcome.fail forbidden ∧
    (bindPush (failingHookEnv HookPoint.PreReadPushBody forbidden) pushHeader freshSt).1
      = Res.ok Body.nil ∧
    (handlePush (failingHookEnv HookPoint.PreReadPushBody forbidden)
        (bindPush (failingHookEnv HookPoint.PreReadPushBody forbidden) pushHeader freshSt).2).2.trace
      = [Event.hook 0 HookPoint.PostReadPushHeader, Event.urlParse "/push/status",
         Event.pushRouterGet "/push/status", Event.hook 6 HookPoint.PreReadPushBody,
         Event.hook 6 HookPoint.PostReadPushBody, Event.handleFunc 8, Event.runlog] := by
  refine ⟨rfl, rfl, rfl, ?_⟩
  rfl

/-! ### PULL rejected by a hook -/

/-- What `bindPull` leaves behind once the route is found. -/
theorem bindPull_routed (env : Env) (header : Header) (s : St) (pc sid cont : Nat) (u : URL)
    (h : Handler)
    (hpc : s.ctx.pluginContainer = some pc) (hs : s.ctx.sess = some sid)
    (hhook : env.hook pc HookPoint.PostReadPullHeader = HookOutcome.pass)
    (huri : env.urlParse header.Uri = Except.ok u)
    (hroute : env.pullRouterGet u.Path = Lookup.found h)
    (hcont : h.pluginContainer = some cont) :
    (bindPull env header s).2.ctx.pluginContainer = some cont ∧
    (bindPull env header s).2.ctx.sess = some sid ∧
    (bindPull env header s).2.ctx.apiType = some h ∧
    writes (bindPull env header s).2.trace = writes s.trace ∧
    handlerCalls (bindPull env header s).2.trace = handlerCalls s.trace ∧
    (∀ e, env.hook cont HookPoint.PreReadPullBody = HookOutcome.fail e →
      (bindPull env header s).1 = Res.ok Body.nil ∧
      (bindPull env header s).2.ctx.output.Header.StatusCode = e.code ∧
      (bindPull env header s).2.ctx.output.Header.Status = e.text) ∧
    (env.hook cont HookPoint.PreReadPullBody = HookOutcome.pass →
      (bindPull env header s).1 = Res.ok (bindPull env header s).2.ctx.input.Body ∧
      (bindPull env header s).2.ctx.input.Body
        = (if h.isUnknown then Body.rawBytes else Body.arg h.argElem) ∧
      (bindPull env header s).2.ctx.output.Header.StatusCode = StatusOK ∧
      (bindPull env header s).2.ctx.output.Header.Status = env.StatusText StatusOK) := by
  obtain ⟨hid, ae, iu, pcont⟩ := h
  simp only at hcont
  subst hcont
  cases iu <;> rcases hr : env.hook cont HookPoint.PreReadPullBody with _ | e | _ <;>
    simp [bindPull, M.bind, modifyOutHeader, modifyCtx, M.modify, M.get, callHook, hpc, hhook,
      urlParse, emit, huri, Path, derefUri, pullRouterGet, derefSess, derefApiType, hs, hroute, hr,
      writes_append, writes, handlerCalls_append, handlerCalls]

/-- When the hook `post_read_pull_body` returns a wire error, `handlePull`
skips the handler and hands the output packet with that status to the
session. -/
theorem handlePull_post_body_error (env : Env) (s : St) (pc sid : Nat) (e : Xerror)
    (hpc : s.ctx.pluginContainer = some pc) (hs : s.ctx.sess = some sid)
    (hst : s.ctx.output.Header.StatusCode = StatusOK)
    (hpost : env.hook pc HookPoint.PostReadPullBody = HookOutcome.fail e)
    (hpre : env.hook pc HookPoint.PreWriteReply ≠ HookOutcome.panics) :
    (handlePull env s).1 = Res.ok () ∧
    handlerCalls (handlePull env s).2.trace = handlerCalls s.trace ∧
    writes (handlePull env s).2.trace = writes s.trace ++
      [{ s.ctx.output with
          Header := { s.ctx.output.Header with StatusCode := e.code, Status := e.text } }] := by
  rcases h5 : env.hook pc HookPoint.PreWriteReply with _ | e1 | _
  case panics => exact absurd h5 hpre
  all_goals
    rcases hw : env.write { s.ctx.output with
        Header := { s.ctx.output.Header with StatusCode := e.code, Status := e.text } }
      with _ | err <;>
    rcases h6 : env.hook pc HookPoint.PostWriteReply with _ | e2 | _ <;>
    simp [handlePull, handlePullBody, M.recover, M.bind, M.get, hst, callHook, hpc, h5, h6, hw,
      hpost, sessWrite, derefSess, hs, emit, M.modify, modifyOutHeader, modifyCtx, runlog,
      writes_append, handlerCalls_append, writes, handlerCalls]

/-- Where the hooks of a PULL do reject it: a wire error `e` returned by
`post_read_pull_header` or `pre_read_pull_body` with a code other than OK,
or any wire error returned by `post_read_pull_body`, keeps the handler from
being invoked and is the status code and text of the REPLY that `handlePull`
hands to the session (the hook `pre_write_reply` not panicking); for the
first two hooks `bindPull` returns no body slot. -/
theorem pull_hook_error_becomes_reply_status (env : Env) (header : Header) (s : St)
    (pc sid : Nat) (e : Xerror)
    (hpc : s.ctx.pluginContainer = some pc) (hs : s.ctx.sess = some sid)
    (hcase :
      (PullRejectedAtHeader env pc e ∧ e.code ≠ StatusOK) ∨
      (PullRejectedBeforeBody env header pc e ∧ e.code ≠ StatusOK) ∨
      PullRejectedAfterBody env header pc e) :
    handlerCalls (handlePull env (bindPull env header s).2).2.trace = handlerCalls s.trace ∧
    (∃ p, writes (handlePull env (bindPull env header s).2).2.trace = writes s.trace ++ [p] ∧
      p.Header.StatusCode = e.code ∧ p.Header.Status = e.text) ∧
    (PullRejectedAtHeader env pc e ∨ PullRejectedBeforeBody env header pc e →
      (bindPull env header s).1 = Res.ok Body.nil) := by
  rcases hcase with ⟨⟨hf, hpre⟩, hne⟩ | ⟨⟨u, hd, hpc2, hp, hu, hr, hc, hf, hpre⟩, hne⟩ |
    ⟨u, hd, hpc2, hp, hu, hr, hc, hpass, hf, hpre⟩
  · have hb : bindPull env header s = (Res.ok Body.nil,
        { s with
          ctx := { s.ctx with
            output := { s.ctx.output with
              HeaderCodec := s.ctx.input.HeaderCodec
              Header := { s.ctx.output.Header with
                Seq := header.Seq, Typ := env.TypeReply, Uri := header.Uri, Gzip := header.Gzip,
                StatusCode := e.code, Status := e.text } } },
          trace := s.trace ++ [Event.hook pc HookPoint.PostReadPullHeader] }) := by
      simp [bindPull, M.bind, modifyOutHeader, modifyCtx, M.modify, callHook, hpc, hf]
    have h := handlePull_not_ok env (bindPull env header s).2 pc sid
      (by rw [hb]; exact hpc) (by rw [hb]; exact hs) (by rw [hb]; exact hne) hpre
    have hcl : handlerCalls (bindPull env header s).2.trace = handlerCalls s.trace := by
      rw [hb]; simp [handlerCalls_append, handlerCalls]
    have hw : writes (bindPull env header s).2.trace = writes s.trace := by
      rw [hb]; simp [writes_append, writes]
    refine ⟨by rw [h.2.1, hcl], ⟨_, by rw [h.2.2, hw], by rw [hb], by rw [hb]⟩, fun _ => by rw [hb]⟩
  · obtain ⟨b1, b2, b3, b4, b5, b6, -⟩ :=
      bindPull_routed env header s pc sid hpc2 u hd hpc hs hp hu hr hc
    obtain ⟨r1, r2, r3⟩ := b6 e hf
    have h := handlePull_not_ok env (bindPull env header s).2 hpc2 sid b1 b2
      (by rw [r2]; exact hne) hpre
    exact ⟨by rw [h.2.1, b5], ⟨_, by rw [h.2.2, b4], r2, r3⟩, fun _ => r1⟩
  · obtain ⟨b1, b2, b3, b4, b5, -, b7⟩ :=
      bindPull_routed env header s pc sid hpc2 u hd hpc hs hp hu hr hc
    obtain ⟨r1, r2, r3, r4⟩ := b7 hpass
    have h := handlePull_post_body_error env (bindPull env header s).2 hpc2 sid e b1 b2 r3 hf hpre
    refine ⟨by rw [h.2.1, b5], ⟨_, by rw [h.2.2, b4], rfl, rfl⟩, ?_⟩
    rintro (⟨hf2, -⟩ | ⟨u2, hd2, c2, -, hu2, hr2, hc2, hf2, -⟩)
    · rw [hp] at hf2
      cases hf2
    · rw [hu] at hu2
      cases hu2
      rw [hr] at hr2
      cases hr2
      rw [hc] at hc2
      cases hc2
      rw [hpass] at hf2
      cases hf2

/-- Three sample inputs: each of the three hooks in turn rejects the PULL
with `forbidden`, and no handler is invoked. -/
theorem pull_hook_error_becomes_reply_status_witness :
    handlerCalls (handlePull (failingHookEnv HookPoint.PostReadPullHeader forbidden)
      (bindPull (failingHookEnv HookPoint.PostReadPullHeader forbidden) pullHeader freshSt).2).2.trace
      = handlerCalls freshSt.trace ∧
    handlerCalls (handlePull (failingHookEnv HookPoint.PreReadPullBody forbidden)
      (bindPull (failingHookEnv HookPoint.PreReadPullBody forbidden) pullHeader freshSt).2).2.trace
      = handlerCalls freshSt.trace ∧
    handlerCalls (handlePull (failingHookEnv HookPoint.PostReadPullBody forbidden)
      (bindPull (failingHookEnv HookPoint.PostReadPullBody forbidden) pullHeader freshSt).2).2.trace
      = handlerCalls freshSt.trace :=
  ⟨(pull_hook_error_becomes_reply_status (failingHookEnv HookPoint.PostReadPullHeader forbidden)
      pullHeader freshSt 0 1 forbidden rfl rfl
      (Or.inl ⟨⟨rfl, by decide⟩, by decide⟩)).1,
   (pull_hook_error_becomes_reply_status (failingHookEnv HookPoint.PreReadPullBody forbidden)
      pullHeader freshSt 0 1 forbidden rfl rfl
      (Or.inr (Or.inl ⟨⟨{ Path := "/math/add", RawQuery := "" }, sampleHandler, 6,
        rfl, rfl, rfl, rfl, rfl, by decide⟩, by decide⟩))).1,
   (pull_hook_error_becomes_reply_status (failingHookEnv HookPoint.PostReadPullBody forbidden)
      pullHeader freshSt 0 1 forbidden rfl rfl
      (Or.inr (Or.inr ⟨{ Path := "/math/add", RawQuery := "" }, sampleHandler, 6,
        rfl, rfl, rfl, rfl, rfl, rfl, by decide⟩))).1⟩

/-- C3, at the failing input: the route of the PULL is found and the hook
`pre_read_pull_body` returns the wire error `okCoded`, whose code is OK.
`bindPull` returns no body slot, yet `handlePull` runs `post_read_pull_body`
and invokes the handler, because its gate is the status code of the output
header (context.go 382) and the wire error left it OK; the REPLY carries the
body set by the handler.  The same wire error returned by
`post_read_pull_body` does keep the handler from being invoked; returned by
`post_read_pull_header`, it lets `handlePull` run `post_read_pull_body` on
the packet without a route, after which the nil descriptor is dereferenced,
the panic is recovered and no REPLY is handed to the session. -/
theorem pull_ok_coded_error_runs_handler :
    (failingHookEnv HookPoint.PreReadPullBody okCoded).pullRouterGet "/math/add"
      = Lookup.found sampleHandler ∧
    (failingHookEnv HookPoint.PreReadPullBody okCoded).hook 6 HookPoint.PreReadPullBody
      = HookOutcome.fail okCoded ∧
    (bindPull (failingHookEnv HookPoint.PreReadPullBody okCoded) pullHeader freshSt).1
      = Res.ok Body.nil ∧
    (handlePull (failingHookEnv HookPoint.PreReadPullBody okCoded)
      (bindPull (failingHookEnv HookPoint.PreReadPullBody okCoded) pullHeader freshSt).2).2.trace
      = [Event.hook 0 HookPoint.PostReadPullHeader, Event.urlParse "/math/add",
         Event.pullRouterGet "/math/add", Event.hook 6 HookPoint.PreReadPullBody,
         Event.hook 6 HookPoint.PostReadPullBody, Event.handleFunc 8,
         Event.hook 6 HookPoint.PreWriteReply,
         Event.write
           { Header := { Seq := 9, Typ := 2, Uri := "/math/add", Gzip := 0, StatusCode := StatusOK,
                         Status := "blocked" },
             HeaderCodec := "", BodyCodec := "", Body := Body.val 15, Size := 0 },
         Event.hook 6 HookPoint.PostWriteReply, Event.runlog] ∧
    handlerCalls (handlePull (failingHookEnv HookPoint.PreReadPullBody okCoded)
      (bindPull (failingHookEnv HookPoint.PreReadPullBody okCoded) pullHeader freshSt).2).2.trace
      = [Event.handleFunc 8] ∧
    handlerCalls (handlePull (failingHookEnv HookPoint.PostReadPullBody okCoded)
      (bindPull (failingHookEnv HookPoint.PostReadPullBody okCoded) pullHeader freshSt).2).2.trace
      = [] ∧
    (bindPull (failingHookEnv HookPoint.PostReadPullHeader okCoded) pullHeader freshSt).1
      = Res.ok Body.nil ∧
    (handlePull (failingHookEnv HookPoint.PostReadPullHeader okCoded)
      (bindPull (failingHookEnv HookPoint.PostReadPullHeader okCoded) pullHeader freshSt).2).2.trace
      = [Event.hook 0 HookPoint.PostReadPullHeader, Event.hook 0 HookPoint.PostReadPullBody,
         Event.errorf, Event.runlog] := by
  refine ⟨rfl, rfl, rfl, ?_, ?_, ?_, rfl, ?_⟩ <;> rfl

/-! ### PULL handler panic -/

/-- C4, as amended: when a PULL is bound with status OK and its handler
panics, `handlePull` recovers and logs the panic and returns after the
run-log; the handler was invoked once and the output packet, with its status
OK, is as `bindPull` left it: the status is not converted. -/
theorem pull_handler_panic_is_recovered (env : Env) (s : St) (pc sid : Nat) (h : Handler)
    (hpc : s.ctx.pluginContainer = some pc) (hs : s.ctx.sess = some sid)
    (hst : s.ctx.output.Header.StatusCode = StatusOK)
    (hapi : s.ctx.apiType = some h)
    (hpost : env.hook pc HookPoint.PostReadPullBody = HookOutcome.pass)
    (hpanic : (if h.isUnknown then env.unknownPullHandle h.id else env.pullHandle h.id)
      = PullOutcome.panics) :
    (handlePull env s).1 = Res.ok () ∧
    (handlePull env s).2.trace = s.trace ++
      [Event.hook pc HookPoint.PostReadPullBody,
       (if h.isUnknown then Event.unknownHandleFunc h.id else Event.handleFunc h.id),
       Event.errorf, Event.runlog] ∧
    (handlePull env s).2.ctx.output = s.ctx.output ∧
    (handlePull env s).2.ctx.output.Header.StatusCode = StatusOK := by
  obtain ⟨hid, ae, iu, pcont⟩ := h
  cases iu <;> simp only [Bool.false_eq_true, if_false, if_true] at hpanic <;>
    simp [handlePull, handlePullBody, M.recover, M.bind, M.get, hst, callHook, hpc, hpost,
      derefApiType, hapi, pullHandleFunc, pullUnknownHandleFunc, hpanic, M.panic, emit, M.modify,
      modifyCtx, runlog, derefSess, hs]

/-- C4 as amended, at a sample input: the handler of `/math/add` panics. -/
theorem pull_handler_panic_is_recovered_witness :
    (handlePull panicEnv (bindPull panicEnv pullHeader freshSt).2).1 = Res.ok () ∧
    (handlePull panicEnv (bindPull panicEnv pullHeader freshSt).2).2.ctx.output.Header.StatusCode
      = StatusOK :=
  have h := pull_handler_panic_is_recovered panicEnv (bindPull panicEnv pullHeader freshSt).2
    6 1 sampleHandler rfl rfl rfl rfl rfl rfl
  ⟨h.1, h.2.2.2⟩

/-- C4 fails as stated: the PULL binds with status OK, its handler panics,
and `handlePull` hands no packet at all to the session, so no REPLY with
status INTERNAL_SERVER_ERROR is written. -/
theorem pull_handler_panic_writes_nothing :
    (bindPull panicEnv pullHeader freshSt).2.ctx.output.Header.StatusCode = StatusOK ∧
    panicEnv.pullHandle sampleHandler.id = PullOutcome.panics ∧
    handlerCalls (handlePull panicEnv (bindPull panicEnv pullHeader freshSt).2).2.trace
      = [Event.handleFunc 8] ∧
    writes (handlePull panicEnv (bindPull panicEnv pullHeader freshSt).2).2.trace = [] ∧
    ¬ ∃ p ∈ writes (handlePull panicEnv (bindPull panicEnv pullHeader freshSt).2).2.trace,
        p.Header.StatusCode = panicEnv.StatusInternalServerError := by
  have hw : writes (handlePull panicEnv (bindPull panicEnv pullHeader freshSt).2).2.trace = [] :=
    rfl
  refine ⟨rfl, rfl, rfl, hw, ?_⟩
  rw [hw]
  simp

/-! ### REPLY and completion of a pending pull -/

/-- C8: a REPLY header whose sequence number is not in the pending-pull
table gets no body slot from `bindReply`, which leaves the pull-cmd
reference of the context nil; `handleReply` then returns after a debug log:
no `PullCmd` object changes, nothing is sent on any channel, and the session
(pending-pull table and in-flight counter) is unchanged. -/
theorem reply_without_pending_pull_is_dropped (env : Env) (header : Header) (s : St) (sid : Nat)
    (hs : s.ctx.sess = some sid) (hcmd : s.ctx.pullCmd = none)
    (hmiss : mapLoad s.sess.pullCmdMap header.Seq = none) :
    (bindReply env header s).1 = Res.ok Body.nil ∧
    (bindReply env header s).2.ctx.pullCmd = none ∧
    (handleReply env (bindReply env header s).2).1 = Res.ok () ∧
    (handleReply env (bindReply env header s).2).2.cmds = s.cmds ∧
    (handleReply env (bindReply env header s).2).2.chans = s.chans ∧
    sends (handleReply env (bindReply env header s).2).2.trace = sends s.trace ∧
    (handleReply env (bindReply env header s).2).2.sess.pullCmdMap = s.sess.pullCmdMap ∧
    (handleReply env (bindReply env header s).2).2.sess.gracePullCmdWaitGroup
      = s.sess.gracePullCmdWaitGroup ∧
    (handleReply env (bindReply env header s).2).2.trace
      = s.trace ++ [Event.debugf, Event.debugf] := by
  have hb : bindReply env header s
      = (Res.ok Body.nil, { s with trace := s.trace ++ [Event.debugf] }) := by
    simp [bindReply, M.bind, derefSess, hs, hmiss, emit, M.modify]
  rw [hb]
  simp [handleReply, M.bind, M.get, hcmd, emit, M.modify, sends_append, sends]

/-- C8, at a sample input: a REPLY with sequence number 9 while only the
pull with sequence number 7 is pending. -/
theorem reply_without_pending_pull_is_dropped_witness :
    (bindReply quietEnv pullHeader freshSt).1 = Res.ok Body.nil ∧
    (handleReply quietEnv (bindReply quietEnv pullHeader freshSt).2).2.sess.pullCmdMap
      = [(7, 5)] ∧
    (handleReply quietEnv (bindReply quietEnv pullHeader freshSt).2).2.sess.gracePullCmdWaitGroup
      = 1 :=
  have h := reply_without_pending_pull_is_dropped quietEnv pullHeader freshSt 1 rfl rfl rfl
  ⟨h.1, h.2.2.2.2.2.2.1, h.2.2.2.2.2.2.2.1⟩

/-- Sending on an open channel with room enqueues the value. -/
theorem chanSend_ready (ch p : Nat) (s : St)
    (hopen : (s.chans ch).closed = false)
    (hroom : (s.chans ch).buf.length < (s.chans ch).cap) :
    chanSend ch p s = (Res.ok (), { s with
      chans := Function.update s.chans ch { s.chans ch with buf := (s.chans ch).buf ++ [p] },
      trace := s.trace ++ [Event.send ch p] }) := by
  simp [chanSend, hopen, hroom]

/-- On a `PullCmd` whose channel is open with room, `done` sends the object
once, removes its sequence number from the table and decrements the
in-flight counter; it returns normally. -/
theorem pullCmd_done_ready (p : Nat) (s : St)
    (hopen : (s.chans (s.cmds p).doneChan).closed = false)
    (hroom : (s.chans (s.cmds p).doneChan).buf.length < (s.chans (s.cmds p).doneChan).cap) :
    PullCmd.done p s = (Res.ok (), { s with
      chans := Function.update s.chans (s.cmds p).doneChan
        { s.chans (s.cmds p).doneChan with buf := (s.chans (s.cmds p).doneChan).buf ++ [p] },
      sess := { s.sess with
        pullCmdMap := mapDelete s.sess.pullCmdMap (s.cmds p).output.Header.Seq,
        gracePullCmdWaitGroup := s.sess.gracePullCmdWaitGroup - 1 },
      trace := s.trace ++ [Event.send (s.cmds p).doneChan p] }) := by
  by_cases hn : s.sess.gracePullCmdWaitGroup - 1 < 0 <;>
    simp [PullCmd.done, M.recover, M.bind, M.get, chanSend_ready _ _ _ hopen hroom, sessMapDelete,
      M.modify, wgDone, hn]

/-- What `bindReply` leaves behind when the pull is pending and both
reply-side binding hooks pass. -/
theorem bindReply_pending (env : Env) (header : Header) (s : St) (pc sid p : Nat)
    (hpc : s.ctx.pluginContainer = some pc) (hs : s.ctx.sess = some sid)
    (hload : mapLoad s.sess.pullCmdMap header.Seq = some p)
    (h1 : env.hook pc HookPoint.PostReadReplyHeader = HookOutcome.pass)
    (h2 : env.hook pc HookPoint.PreReadReplyBody = HookOutcome.pass) :
    bindReply env header s = (Res.ok (s.cmds p).reply, { s with
      ctx := { s.ctx with pullCmd := some p, public := some (s.cmds p).public },
      trace := s.trace ++ [Event.hook pc HookPoint.PostReadReplyHeader,
        Event.hook pc HookPoint.PreReadReplyBody] }) := by
  simp [bindReply, M.bind, M.get, derefSess, hs, hload, modifyCtx, M.modify, callHook, hpc, h1, h2]

/-- C9: for a REPLY whose sequence number is in the pending-pull table, with
all reply-side hooks passing and the pull not yet completed (error slot nil,
completion channel open with room), `bindReply` returns the reply slot of
the `PullCmd`; `handleReply` then leaves the error slot nil when the header
status is OK and otherwise sets it to the wire error made of the status code
and status text of the header; in both cases the `PullCmd` is sent once on
its completion channel and its sequence number is removed from the table. -/
theorem reply_completes_pending_pull (env : Env) (header : Header) (s : St) (pc sid p : Nat)
    (hpc : s.ctx.pluginContainer = some pc) (hs : s.ctx.sess = some sid)
    (hload : mapLoad s.sess.pullCmdMap header.Seq = some p)
    (h1 : env.hook pc HookPoint.PostReadReplyHeader = HookOutcome.pass)
    (h2 : env.hook pc HookPoint.PreReadReplyBody = HookOutcome.pass)
    (h3 : env.hook pc HookPoint.PostReadReplyBody = HookOutcome.pass)
    (hnil : (s.cmds p).xerror = none)
    (hopen : (s.chans (s.cmds p).doneChan).closed = false)
    (hroom : (s.chans (s.cmds p).doneChan).buf.length < (s.chans (s.cmds p).doneChan).cap) :
    (bindReply env header s).1 = Res.ok (s.cmds p).reply ∧
    (handleReply env (bindReply env header s).2).1 = Res.ok () ∧
    ((handleReply env (bindReply env header s).2).2.cmds p).xerror
      = (if s.ctx.input.Header.StatusCode = StatusOK then none
         else some (NewXerror s.ctx.input.Header.StatusCode s.ctx.input.Header.Status)) ∧
    sends (handleReply env (bindReply env header s).2).2.trace
      = sends s.trace ++ [((s.cmds p).doneChan, p)] ∧
    ((handleReply env (bindReply env header s).2).2.chans (s.cmds p).doneChan).buf
      = (s.chans (s.cmds p).doneChan).buf ++ [p] ∧
    (handleReply env (bindReply env header s).2).2.sess.pullCmdMap
      = mapDelete s.sess.pullCmdMap (s.cmds p).output.Header.Seq ∧
    mapLoad (handleReply env (bindReply env header s).2).2.sess.pullCmdMap
      (s.cmds p).output.Header.Seq = none := by
  rw [bindReply_pending env header s pc sid p hpc hs hload h1 h2]
  refine ⟨rfl, ?_⟩
  by_cases hst : s.ctx.input.Header.StatusCode = StatusOK
  · simp [handleReply, handleReplyBody, M.recover, M.bind, M.get, hnil, hst, callHook, hpc, h3,
      pullCmd_done_ready, hopen, hroom, modifyCmd, M.modify, runlog, derefSess, hs, emit,
      sends_append, sends, mapLoad_mapDelete]
  · simp [handleReply, handleReplyBody, M.recover, M.bind, M.get, hnil, hst,
      pullCmd_done_ready, hopen, hroom, modifyCmd, M.modify, runlog, derefSess, hs, emit,
      sends_append, sends, mapLoad_mapDelete]

/-- C9, at two sample inputs: the reply to the pending pull 7 arrives with
status OK, and with status NOT_FOUND. -/
theorem reply_completes_pending_pull_witness :
    ((bindReply quietEnv replyHeader (stWithInput replyHeader)).1 = Res.ok (Body.val 42) ∧
     ((handleReply quietEnv
        (bindReply quietEnv replyHeader (stWithInput replyHeader)).2).2.cmds 5).xerror = none ∧
     (handleReply quietEnv
        (bindReply quietEnv replyHeader (stWithInput replyHeader)).2).2.sess.pullCmdMap = []) ∧
    ((handleReply quietEnv
        (bindReply quietEnv notFoundReplyHeader (stWithInput notFoundReplyHeader)).2).2.cmds 5).xerror
      = some (NewXerror StatusNotFound "Not Found") :=
  have ha := reply_completes_pending_pull quietEnv replyHeader (stWithInput replyHeader) 0 1 5
    rfl rfl rfl rfl rfl rfl rfl rfl (by decide)
  have hb := reply_completes_pending_pull quietEnv notFoundReplyHeader
    (stWithInput notFoundReplyHeader) 0 1 5 rfl rfl rfl rfl rfl rfl rfl rfl (by decide)
  ⟨⟨ha.1, ha.2.2.1, ha.2.2.2.2.2.1⟩, hb.2.2.1⟩

/-- C10: on a pending `PullCmd` not yet completed (completion channel open
with room), `cancel` sets the error slot to the wire error with status code
CONN_CLOSED and its status text, sends the object once on its completion
channel, removes its sequence number from the pending-pull table and
decrements the in-flight counter by one. -/
theorem cancel_completes_with_conn_closed (env : Env) (s : St) (p : Nat)
    (hopen : (s.chans (s.cmds p).doneChan).closed = false)
    (hroom : (s.chans (s.cmds p).doneChan).buf.length < (s.chans (s.cmds p).doneChan).cap) :
    (PullCmd.cancel env p s).1 = Res.ok () ∧
    ((PullCmd.cancel env p s).2.cmds p).xerror
      = some (NewXerror env.StatusConnClosed (env.StatusText env.StatusConnClosed)) ∧
    sends (PullCmd.cancel env p s).2.trace = sends s.trace ++ [((s.cmds p).doneChan, p)] ∧
    ((PullCmd.cancel env p s).2.chans (s.cmds p).doneChan).buf
      = (s.chans (s.cmds p).doneChan).buf ++ [p] ∧
    (PullCmd.cancel env p s).2.sess.pullCmdMap
      = mapDelete s.sess.pullCmdMap (s.cmds p).output.Header.Seq ∧
    mapLoad (PullCmd.cancel env p s).2.sess.pullCmdMap (s.cmds p).output.Header.Seq = none ∧
    (PullCmd.cancel env p s).2.sess.gracePullCmdWaitGroup = s.sess.gracePullCmdWaitGroup - 1 := by
  by_cases hn : s.sess.gracePullCmdWaitGroup - 1 < 0 <;>
    simp [PullCmd.cancel, M.recover, M.bind, M.get, modifyCmd, M.modify, chanSend_ready, hopen,
      hroom, sessMapDelete, wgDone, hn, sends_append, sends, mapLoad_mapDelete]

/-- C10, at a sample input: the pending pull 7 (object 5, channel 3) is
cancelled. -/
theorem cancel_completes_with_conn_closed_witness :
    (PullCmd.cancel quietEnv 5 freshSt).1 = Res.ok () ∧
    ((PullCmd.cancel quietEnv 5 freshSt).2.cmds 5).xerror = some (NewXerror 102 "Error") ∧
    sends (PullCmd.cancel quietEnv 5 freshSt).2.trace = [(3, 5)] ∧
    (PullCmd.cancel quietEnv 5 freshSt).2.sess.pullCmdMap = [] ∧
    (PullCmd.cancel quietEnv 5 freshSt).2.sess.gracePullCmdWaitGroup = 0 :=
  have h := cancel_completes_with_conn_closed quietEnv freshSt 5 rfl (by decide)
  ⟨h.1, h.2.1, h.2.2.1, h.2.2.2.2.1, h.2.2.2.2.2.2⟩

/-! ### Peer configuration -/

theorem string_length_eq_zero (s : String) : s.length = 0 ↔ s = "" := by
  constructor
  · intro h
    cases s with
    | mk l =>
      have : l = [] := List.length_eq_zero.mp h
      subst this
      rfl
  · rintro rfl
    rfl

/-- What `check` does on the fields it touches. -/
theorem check_unfold (p : PeerConfig) :
    (p.checkNetwork = none → p.check = (p,
      some "Invalid network config, refer to the following: tcp, tcp4, tcp6, unix or unixpacket.")) ∧
    (∀ p1, p.checkNetwork = some p1 →
      p.check.2 = none ∧
      p.check.1.Network = p1.Network ∧
      p.check.1.slowCometDuration
        = (if p.SlowCometDuration > 0 then p.SlowCometDuration else MaxInt64) ∧
      p.check.1.DefaultBodyCodec
        = (if p.DefaultBodyCodec = "" then "json" else p.DefaultBodyCodec)) := by
  constructor
  · intro h
    simp [PeerConfig.check, h]
  · intro p1 h
    have hp1 : p1.SlowCometDuration = p.SlowCometDuration ∧ p1.DefaultBodyCodec = p.DefaultBodyCodec := by
      unfold PeerConfig.checkNetwork at h
      split at h
      · cases h; exact ⟨rfl, rfl⟩
      · split at h
        · cases h; exact ⟨rfl, rfl⟩
        · cases h
    simp only [PeerConfig.check, h, hp1.1, hp1.2, string_length_eq_zero]
    by_cases h1 : p.SlowCometDuration > 0 <;> by_cases h2 : p.DefaultBodyCodec = "" <;>
      simp [h1, h2, hp1.1, hp1.2]

/-- The valid network names. -/
theorem checkNetwork_cases (p : PeerConfig) :
    (p.checkNetwork = none ↔
      ¬ (p.Network = "" ∨ p.Network = "tcp" ∨ p.Network = "tcp4" ∨ p.Network = "tcp6"
        ∨ p.Network = "unix" ∨ p.Network = "unixpacket")) ∧
    (∀ p1, p.checkNetwork = some p1 →
      p1.Network = (if p.Network = "" then "tcp" else p.Network) ∧
      (p1.Network = "tcp" ∨ p1.Network = "tcp4" ∨ p1.Network = "tcp6" ∨ p1.Network = "unix"
        ∨ p1.Network = "unixpacket")) := by
  unfold PeerConfig.checkNetwork
  by_cases h0 : p.Network = ""
  · simp [h0]
  · by_cases h1 : p.Network = "tcp" ∨ p.Network = "tcp4" ∨ p.Network = "tcp6"
        ∨ p.Network = "unix" ∨ p.Network = "unixpacket"
    · simp only [h0, h1, if_false, if_true, false_or, not_true_eq_false, iff_false]
      refine ⟨by simp, ?_⟩
      intro p1 hp1
      cases hp1
      exact ⟨rfl, h1⟩
    · simp [h0, h1]

/-- C16: `check` returns an error exactly when `Network` is none of "",
"tcp", "tcp4", "tcp6", "unix", "unixpacket"; when it succeeds, an empty
`Network` has become "tcp", a valid non-empty one is unchanged, and the
`Network` of the config is one of the five valid names. -/
theorem check_network (p : PeerConfig) :
    (p.check.2 ≠ none ↔
      ¬ (p.Network = "" ∨ p.Network = "tcp" ∨ p.Network = "tcp4" ∨ p.Network = "tcp6"
        ∨ p.Network = "unix" ∨ p.Network = "unixpacket")) ∧
    (p.check.2 = none →
      (p.Network = "" → p.check.1.Network = "tcp") ∧
      (p.Network ≠ "" → p.check.1.Network = p.Network) ∧
      (p.check.1.Network = "tcp" ∨ p.check.1.Network = "tcp4" ∨ p.check.1.Network = "tcp6"
        ∨ p.check.1.Network = "unix" ∨ p.check.1.Network = "unixpacket")) := by
  obtain ⟨hnone, hsome⟩ := checkNetwork_cases p
  obtain ⟨u1, u2⟩ := check_unfold p
  cases hc : p.checkNetwork with
  | none =>
    have hr := u1 hc
    refine ⟨⟨fun _ => hnone.mp hc, fun _ => by rw [hr]; simp⟩, ?_⟩
    intro h
    rw [hr] at h
    simp at h
  | some p1 =>
    obtain ⟨r1, r2, -, -⟩ := u2 p1 hc
    obtain ⟨s1, s2⟩ := hsome p1 hc
    refine ⟨⟨fun h => absurd r1 h, fun h => ?_⟩, fun _ => ⟨?_, ?_, ?_⟩⟩
    · have := hnone.mpr h
      rw [hc] at this
      cases this
    · intro h0
      rw [r2, s1, if_pos h0]
    · intro h0
      rw [r2, s1, if_neg h0]
    · rw [r2]
      exact s2

/-- C17: when `check` accepts the config, `DefaultBodyCodec` is "json" if it
was empty before and is unchanged otherwise. -/
theorem check_default_body_codec (p : PeerConfig) (hok : p.check.2 = none) :
    p.check.1.DefaultBodyCodec = (if p.DefaultBodyCodec = "" then "json" else p.DefaultBodyCodec) := by
  obtain ⟨u1, u2⟩ := check_unfold p
  cases hc : p.checkNetwork with
  | none =>
    rw [u1 hc] at hok
    simp at hok
  | some p1 => exact (u2 p1 hc).2.2.2

/-- C17, at two sample inputs: an empty codec name and the name "protobuf". -/
theorem check_default_body_codec_witness :
    sampleConfig.check.1.DefaultBodyCodec = "json" ∧
    ({ sampleConfig with DefaultBodyCodec := "protobuf" } : PeerConfig).check.1.DefaultBodyCodec
      = "protobuf" :=
  ⟨check_default_body_codec sampleConfig rfl,
   check_default_body_codec { sampleConfig with DefaultBodyCodec := "protobuf" } rfl⟩

/-- C18: when `check` accepts the config, the effective threshold
`slowCometDuration` is `SlowCometDuration` if that is positive and
`math.MaxInt64` otherwise; in the second case no 64-bit duration is
strictly greater than the threshold. -/
theorem check_slow_comet_duration (p : PeerConfig) (hok : p.check.2 = none) :
    p.check.1.slowCometDuration
      = (if p.SlowCometDuration > 0 then p.SlowCometDuration else MaxInt64) ∧
    (p.SlowCometDuration ≤ 0 →
      p.check.1.slowCometDuration = 2 ^ 63 - 1 ∧
      ∀ d : Int, - 2 ^ 63 ≤ d → d ≤ 2 ^ 63 - 1 → ¬ d > p.check.1.slowCometDuration) := by
  obtain ⟨u1, u2⟩ := check_unfold p
  cases hc : p.checkNetwork with
  | none =>
    rw [u1 hc] at hok
    simp at hok
  | some p1 =>
    have h := (u2 p1 hc).2.2.1
    refine ⟨h, fun hle => ?_⟩
    have hnot : ¬ p.SlowCometDuration > 0 := not_lt.mpr hle
    rw [h, if_neg hnot]
    refine ⟨rfl, fun d _ hd => ?_⟩
    unfold MaxInt64
    exact not_lt.mpr hd

/-- C18, at two sample inputs: no threshold configured, and a threshold of
one second. -/
theorem check_slow_comet_duration_witness :
    sampleConfig.check.1.slowCometDuration = 2 ^ 63 - 1 ∧
    ({ sampleConfig with SlowCometDuration := 1000000000 } : PeerConfig).check.1.slowCometDuration
      = 1000000000 :=
  ⟨((check_slow_comet_duration sampleConfig rfl).2 (by decide)).1,
   (check_slow_comet_duration { sampleConfig with SlowCometDuration := 1000000000 } rfl).1⟩

/-! ### Context pooling -/

theorem mapStore_new (m : List (String × String)) (k v : String)
    (hk : k ∉ m.map Prod.fst) : mapStore m k v = m ++ [(k, v)] := by
  induction m with
  | nil => rfl
  | cons e es ih =>
    obtain ⟨k1, v1⟩ := e
    simp only [List.map_cons, List.mem_cons, not_or] at hk
    have hne : ¬ k1 = k := fun h => hk.1 h.symm
    simp [mapStore, hne, ih hk.2]

theorem mapRangeStore_nodup (src dst : List (String × String))
    (hsrc : (src.map Prod.fst).Nodup)
    (hdisj : ∀ k ∈ src.map Prod.fst, k ∉ dst.map Prod.fst) :
    mapRangeStore src dst = dst ++ src := by
  induction src generalizing dst with
  | nil => simp [mapRangeStore]
  | cons e es ih =>
    obtain ⟨k, v⟩ := e
    simp only [List.map_cons, List.nodup_cons] at hsrc
    have hk : k ∉ dst.map Prod.fst := hdisj k (by simp)
    have hstep : mapRangeStore ((k, v) :: es) dst = mapRangeStore es (mapStore dst k v) := rfl
    rw [hstep, mapStore_new dst k v hk, ih _ hsrc.2]
    · simp
    · intro k2 hk2
      simp only [List.map_append, List.map_cons, List.map_nil, List.mem_append, List.mem_singleton,
        not_or]
      refine ⟨hdisj k2 (by simp [hk2]), ?_⟩
      rintro rfl
      exact hsrc.1 hk2

/-- C19: after `reInit(s)` the session reference of the context is `s` and
the public map of the context holds exactly the entries of the public map of
the socket of `s`, whatever it held before. -/
theorem reInit_seeds_public (sid : Nat) (s : St)
    (hmap : (s.sess.socketPublic.map Prod.fst).Nodup) :
    (reInit sid s).1 = Res.ok () ∧
    (reInit sid s).2.ctx.sess = some sid ∧
    (reInit sid s).2.ctx.public = some s.sess.socketPublic ∧
    (∀ k, ((reInit sid s).2.ctx.public.getD []).lookup k = s.sess.socketPublic.lookup k) := by
  have hcopy : mapRangeStore s.sess.socketPublic [] = s.sess.socketPublic := by
    rw [mapRangeStore_nodup _ _ hmap (by simp)]
    simp
  by_cases hlen : s.sess.socketPublic.length > 0
  · simp [reInit, M.bind, M.get, modifyCtx, M.modify, hlen, hcopy]
  · have hnil : s.sess.socketPublic = [] := by
      cases h : s.sess.socketPublic with
      | nil => rfl
      | cons e es => simp [h] at hlen
    simp [reInit, M.bind, M.get, modifyCtx, M.modify, hnil]

/-- C19, at a sample input: a socket with two public entries and a context
that still holds a stale entry. -/
theorem reInit_seeds_public_witness :
    (reInit 1 socketPublicSt).2.ctx.sess = some 1 ∧
    (reInit 1 socketPublicSt).2.ctx.public = some [("user", "alice"), ("role", "admin")] :=
  have h := reInit_seeds_public 1 socketPublicSt (by decide)
  ⟨h.2.1, h.2.2.1⟩

/-- C20, as amended: after `clean()` the session, handler descriptor,
pull-cmd, public map, parsed URI, parsed query and plugin chain are nil, the
argument value is the empty value, the cost is 0 and the input and output
packets are reset; the start timestamp is left as it was. -/
theorem clean_resets_all_but_start (s : St) :
    (clean s).1 = Res.ok () ∧
    (clean s).2.ctx.sess = none ∧
    (clean s).2.ctx.apiType = none ∧
    (clean s).2.ctx.arg = none ∧
    (clean s).2.ctx.pullCmd = none ∧
    (clean s).2.ctx.public = none ∧
    (clean s).2.ctx.uri = none ∧
    (clean s).2.ctx.query = none ∧
    (clean s).2.ctx.cost = 0 ∧
    (clean s).2.ctx.pluginContainer = none ∧
    (clean s).2.ctx.input = s.ctx.input.Reset ∧
    (clean s).2.ctx.output = s.ctx.output.Reset ∧
    (clean s).2.ctx.start = s.ctx.start := by
  simp [clean, M.bind, modifyCtx, M.modify]

/-- C20 fails as stated: a context that handled a PULL read at time 17 still
has the start timestamp 17 after `clean()`, while its cost is 0. -/
theorem clean_keeps_start :
    (handlePull clockEnv (binding clockEnv pullHeader freshSt).2).2.ctx.start = 17 ∧
    (clean (handlePull clockEnv (binding clockEnv pullHeader freshSt).2).2).2.ctx.cost = 0 ∧
    (clean (handlePull clockEnv (binding clockEnv pullHeader freshSt).2).2).2.ctx.start = 17 ∧
    (clean (handlePull clockEnv (binding clockEnv pullHeader freshSt).2).2).2.ctx.start ≠ 0 := by
  refine ⟨rfl, rfl, rfl, ?_⟩
  decide

/-! ### Repeated completion of a pull -/

/-- C11, at the failing inputs.  First: the pending pull 7 (object 5,
channel 3 with room for two values) is completed by `done()`; a further
`done()` sends the object a second time and decrements the in-flight counter
again.  Second: the pull is completed by `done()`, its caller receives it
and closes the channel; a further `cancel()` replaces the nil error slot by
the CONN_CLOSED error before its send panics. -/
theorem repeated_completion_is_not_a_noop :
    (sends (PullCmd.done 5 roomySt).2.trace = [(3, 5)] ∧
     (PullCmd.done 5 roomySt).2.sess.gracePullCmdWaitGroup = 0 ∧
     sends (PullCmd.done 5 (PullCmd.done 5 roomySt).2).2.trace = [(3, 5), (3, 5)] ∧
     ((PullCmd.done 5 (PullCmd.done 5 roomySt).2).2.chans 3).buf = [5, 5] ∧
     (PullCmd.done 5 (PullCmd.done 5 roomySt).2).2.sess.gracePullCmdWaitGroup = -1) ∧
    (((PullCmd.done 5 freshSt).2.cmds 5).xerror = none ∧
     ((drainAndClose 3 (PullCmd.done 5 freshSt).2).chans 3).closed = true ∧
     ((PullCmd.cancel quietEnv 5 (drainAndClose 3 (PullCmd.done 5 freshSt).2)).2.cmds 5).xerror
       = some (NewXerror 102 "Error")) := by
  refine ⟨⟨rfl, rfl, rfl, rfl, rfl⟩, rfl, rfl, rfl⟩

/-! ### Order of the calls around a PULL -/

/-- The state `bindPull` leaves behind when the route is found and both
binding hooks pass. -/
theorem bindPull_bound (env : Env) (header : Header) (s : St) (pc sid cont : Nat) (u : URL)
    (h : Handler)
    (hpc : s.ctx.pluginContainer = some pc) (hs : s.ctx.sess = some sid)
    (hhook : env.hook pc HookPoint.PostReadPullHeader = HookOutcome.pass)
    (huri : env.urlParse header.Uri = Except.ok u)
    (hroute : env.pullRouterGet u.Path = Lookup.found h)
    (hcont : h.pluginContainer = some cont)
    (hpre : env.hook cont HookPoint.PreReadPullBody = HookOutcome.pass) :
    (bindPull env header s).1
      = Res.ok (if h.isUnknown then Body.rawBytes else Body.arg h.argElem) ∧
    (bindPull env header s).2.trace = s.trace ++
      [Event.hook pc HookPoint.PostReadPullHeader, Event.urlParse header.Uri,
       Event.pullRouterGet u.Path, Event.hook cont HookPoint.PreReadPullBody] ∧
    (bindPull env header s).2.ctx.pluginContainer = some cont ∧
    (bindPull env header s).2.ctx.sess = some sid ∧
    (bindPull env header s).2.ctx.apiType = some h ∧
    (bindPull env header s).2.ctx.output.Header.StatusCode = StatusOK ∧
    (bindPull env header s).2.ctx.output.Header.Typ = env.TypeReply ∧
    (bindPull env header s).2.ctx.output.Header.Seq = header.Seq := by
  obtain ⟨hid, ae, iu, pcont⟩ := h
  simp only at hcont
  subst hcont
  cases iu <;>
    simp [bindPull, M.bind, modifyOutHeader, modifyCtx, M.modify, M.get, callHook, hpc, hhook,
      urlParse, emit, huri, Path, derefUri, pullRouterGet, derefSess, derefApiType, hs, hroute,
      hpre]

/-- The calls of `handlePull` on a bound PULL whose hooks pass and whose
handler returns. -/
theorem handlePull_calls (env : Env) (s : St) (sid cont : Nat) (h : Handler) (body : Body)
    (xerr : Option Xerror) (codec : Option String)
    (hpc : s.ctx.pluginContainer = some cont) (hs : s.ctx.sess = some sid)
    (hapi : s.ctx.apiType = some h)
    (hst : s.ctx.output.Header.StatusCode = StatusOK)
    (hpost : env.hook cont HookPoint.PostReadPullBody = HookOutcome.pass)
    (hprew : env.hook cont HookPoint.PreWriteReply = HookOutcome.pass)
    (hpostw : env.hook cont HookPoint.PostWriteReply = HookOutcome.pass)
    (hret : (if h.isUnknown then env.unknownPullHandle h.id else env.pullHandle h.id)
      = PullOutcome.returns body xerr codec) :
    (handlePull env s).1 = Res.ok () ∧
    ∃ p, p.Header.Typ = s.ctx.output.Header.Typ ∧ p.Header.Seq = s.ctx.output.Header.Seq ∧
      p.Body = body ∧
      (handlePull env s).2.trace = s.trace ++
        [Event.hook cont HookPoint.PostReadPullBody,
         (if h.isUnknown then Event.unknownHandleFunc h.id else Event.handleFunc h.id),
         Event.hook cont HookPoint.PreWriteReply, Event.write p,
         Event.hook cont HookPoint.PostWriteReply, Event.runlog] := by
  obtain ⟨hid, ae, iu, pcont⟩ := h
  cases iu <;> simp only [Bool.false_eq_true, if_false, if_true] at hret <;>
    cases xerr <;> cases codec <;>
    simp [handlePull, handlePullBody, M.recover, M.bind, modifyOutHeader, modifyCtx,
      M.modify, M.get, callHook, hpc, emit, derefSess, derefApiType, hs, hapi, hst, hpost, hprew,
      pullHandleFunc, pullUnknownHandleFunc, hret, pullReturn, sessWrite] <;>
    generalize env.write _ = w <;>
    cases w <;>
    simp [M.bind, modifyOutHeader, modifyCtx, M.modify, callHook, hpc, hpostw, runlog, derefSess,
      hs, emit] <;>
    (refine ⟨_, ?_, ?_, ?_, rfl⟩ <;> rfl)

/-- C12: for a PULL whose route is found, whose hooks all pass and whose
handler returns, `bindPull` followed by `handlePull` makes these calls, once
each and in this order: `post_read_pull_header`, URI parsing, route lookup
(after which the body slot is allocated), `pre_read_pull_body`,
`post_read_pull_body`, the handler, `pre_write_reply`, the write of the
REPLY to the session, `post_write_reply`, and the run-log. -/
theorem pull_call_order (env : Env) (header : Header) (s : St) (pc sid cont : Nat) (u : URL)
    (h : Handler) (body : Body) (xerr : Option Xerror) (codec : Option String)
    (hpc : s.ctx.pluginContainer = some pc) (hs : s.ctx.sess = some sid)
    (hhook : env.hook pc HookPoint.PostReadPullHeader = HookOutcome.pass)
    (huri : env.urlParse header.Uri = Except.ok u)
    (hroute : env.pullRouterGet u.Path = Lookup.found h)
    (hcont : h.pluginContainer = some cont)
    (hpre : env.hook cont HookPoint.PreReadPullBody = HookOutcome.pass)
    (hpost : env.hook cont HookPoint.PostReadPullBody = HookOutcome.pass)
    (hprew : env.hook cont HookPoint.PreWriteReply = HookOutcome.pass)
    (hpostw : env.hook cont HookPoint.PostWriteReply = HookOutcome.pass)
    (hret : (if h.isUnknown then env.unknownPullHandle h.id else env.pullHandle h.id)
      = PullOutcome.returns body xerr codec) :
    (bindPull env header s).1
      = Res.ok (if h.isUnknown then Body.rawBytes else Body.arg h.argElem) ∧
    (bindPull env header s).2.trace = s.trace ++
      [Event.hook pc HookPoint.PostReadPullHeader, Event.urlParse header.Uri,
       Event.pullRouterGet u.Path, Event.hook cont HookPoint.PreReadPullBody] ∧
    (handlePull env (bindPull env header s).2).1 = Res.ok () ∧
    ∃ p, p.Header.Typ = env.TypeReply ∧ p.Header.Seq = header.Seq ∧ p.Body = body ∧
      (handlePull env (bindPull env header s).2).2.trace = s.trace ++
        [Event.hook pc HookPoint.PostReadPullHeader, Event.urlParse header.Uri,
         Event.pullRouterGet u.Path, Event.hook cont HookPoint.PreReadPullBody,
         Event.hook cont HookPoint.PostReadPullBody,
         (if h.isUnknown then Event.unknownHandleFunc h.id else Event.handleFunc h.id),
         Event.hook cont HookPoint.PreWriteReply, Event.write p,
         Event.hook cont HookPoint.PostWriteReply, Event.runlog] := by
  obtain ⟨b1, b2, b3, b4, b5, b6, b7, b8⟩ :=
    bindPull_bound env header s pc sid cont u h hpc hs hhook huri hroute hcont hpre
  obtain ⟨r1, p, p1, p2, p3, p4⟩ :=
    handlePull_calls env (bindPull env header s).2 sid cont h body xerr codec b3 b4 b5 b6
      hpost hprew hpostw hret
  refine ⟨b1, b2, r1, p, by rw [p1, b7], by rw [p2, b8], p3, ?_⟩
  rw [p4, b2]
  simp

/-- C12, at a sample input: the PULL of `/math/add` with its handler
registered. -/
theorem pull_call_order_witness :
    ∃ p, (handlePull routedEnv (bindPull routedEnv pullHeader freshSt).2).2.trace =
      [Event.hook 0 HookPoint.PostReadPullHeader, Event.urlParse "/math/add",
       Event.pullRouterGet "/math/add", Event.hook 6 HookPoint.PreReadPullBody,
       Event.hook 6 HookPoint.PostReadPullBody, Event.handleFunc 8,
       Event.hook 6 HookPoint.PreWriteReply, Event.write p,
       Event.hook 6 HookPoint.PostWriteReply, Event.runlog] :=
  have h := pull_call_order routedEnv pullHeader freshSt 0 1 6
    { Path := "/math/add", RawQuery := "" } sampleHandler (Body.val 15) none none
    rfl rfl rfl rfl rfl rfl rfl rfl rfl rfl rfl
  h.2.2.2.elim fun p hp => ⟨p, hp.2.2.2⟩

/-! ### No panic escapes -/

theorem noBlock_pure {α : Type} (a : α) : NoBlock (pure a : M α) :=
  ⟨fun _ h => by cases h⟩

theorem noBlock_panic {α : Type} : NoBlock (M.panic : M α) :=
  ⟨fun _ h => by cases h⟩

theorem noBlock_get : NoBlock M.get :=
  ⟨fun _ h => by cases h⟩

theorem noBlock_modify (f : St → St) : NoBlock (M.modify f) :=
  ⟨fun _ h => by cases h⟩

theorem noBlock_modifyCtx (f : Ctx → Ctx) : NoBlock (modifyCtx f) :=
  ⟨fun _ h => by cases h⟩

theorem noBlock_modifyOutHeader (f : Header → Header) : NoBlock (modifyOutHeader f) :=
  ⟨fun _ h => by cases h⟩

theorem noBlock_modifyCmd (p : Nat) (f : PullCmd → PullCmd) : NoBlock (modifyCmd p f) :=
  ⟨fun _ h => by cases h⟩

theorem noBlock_emit (e : Event) : NoBlock (emit e) :=
  ⟨fun _ h => by cases h⟩

theorem noBlock_derefSess : NoBlock derefSess := by
  constructor
  intro s
  simp only [derefSess]
  split <;> simp

theorem noBlock_derefApiType : NoBlock derefApiType := by
  constructor
  intro s
  simp only [derefApiType]
  split <;> simp

theorem noBlock_derefUri : NoBlock derefUri := by
  constructor
  intro s
  simp only [derefUri]
  split <;> simp

theorem noBlock_callHook (env : Env) (pt : HookPoint) : NoBlock (callHook env pt) := by
  constructor
  intro s
  simp only [callHook]
  split
  · simp
  · split <;> simp

theorem noBlock_bind {α β : Type} {m : M α} {f : α → M β}
    (hm : NoBlock m) (hf : ∀ a, NoBlock (f a)) : NoBlock (m >>= f) := by
  constructor
  intro s
  have h1 := hm.run s
  simp only [bind_apply, M.bind]
  rcases hms : m s with ⟨r, s1⟩
  rw [hms] at h1
  cases r with
  | ok a => exact (hf a).run s1
  | panic => simp
  | block => exact absurd rfl h1

theorem noBlock_recover {α : Type} {m : M α} (hm : NoBlock m) : NoBlock (M.recover m) := by
  constructor
  intro s
  have h1 := hm.run s
  simp only [M.recover]
  rcases hms : m s with ⟨r, s1⟩
  rw [hms] at h1
  cases r with
  | ok a => simp
  | panic => simp
  | block => exact absurd rfl h1

theorem noBlock_bindPush (env : Env) (header : Header) : NoBlock (bindPush env header) := by
  unfold bindPush urlParse pushRouterGet Path
  try dsimp only
  repeat' first
    | exact noBlock_pure _
    | exact noBlock_panic
    | exact noBlock_get
    | with_reducible exact noBlock_callHook _ _
    | with_reducible exact noBlock_derefApiType
    | with_reducible exact noBlock_derefSess
    | with_reducible exact noBlock_derefUri
    | with_reducible exact noBlock_modifyCtx _
    | with_reducible exact noBlock_emit _
    | with_reducible apply noBlock_bind
    | intro _
    | split

theorem noBlock_handlePushBody (env : Env) : NoBlock (handlePushBody env) := by
  unfold handlePushBody pushUnknownHandleFunc pushHandleFunc
  try dsimp only
  repeat' first
    | exact noBlock_pure _
    | exact noBlock_panic
    | exact noBlock_get
    | with_reducible exact noBlock_callHook _ _
    | with_reducible exact noBlock_derefApiType
    | with_reducible exact noBlock_emit _
    | with_reducible apply noBlock_bind
    | intro _
    | split

theorem noBlock_pullReturn (body : Body) (xerr : Option Xerror) (codec : Option String) :
    NoBlock (pullReturn body xerr codec) := by
  unfold pullReturn
  try dsimp only
  repeat' first
    | exact noBlock_pure _
    | with_reducible exact noBlock_modifyCtx _
    | with_reducible exact noBlock_modifyOutHeader _
    | with_reducible apply noBlock_bind
    | intro _
    | split

theorem noBlock_bindPull (env : Env) (header : Header) : NoBlock (bindPull env header) := by
  unfold bindPull urlParse pullRouterGet Path
  try dsimp only
  repeat' first
    | exact noBlock_pure _
    | exact noBlock_panic
    | exact noBlock_get
    | with_reducible exact noBlock_callHook _ _
    | with_reducible exact noBlock_derefApiType
    | with_reducible exact noBlock_derefSess
    | with_reducible exact noBlock_derefUri
    | with_reducible exact noBlock_modifyCtx _
    | with_reducible exact noBlock_modifyOutHeader _
    | with_reducible exact noBlock_emit _
    | with_reducible apply noBlock_bind
    | intro _
    | split

theorem noBlock_handlePullBody (env : Env) : NoBlock (handlePullBody env) := by
  unfold handlePullBody pullUnknownHandleFunc pullHandleFunc sessWrite
  try dsimp only
  repeat' first
    | exact noBlock_pure _
    | exact noBlock_panic
    | exact noBlock_get
    | with_reducible exact noBlock_callHook _ _
    | with_reducible exact noBlock_derefApiType
    | with_reducible exact noBlock_derefSess
    | with_reducible exact noBlock_modifyOutHeader _
    | with_reducible exact noBlock_emit _
    | with_reducible exact noBlock_pullReturn _ _ _
    | with_reducible apply noBlock_bind
    | intro _
    | split

theorem noBlock_bindReply (env : Env) (header : Header) : NoBlock (bindReply env header) := by
  unfold bindReply
  try dsimp only
  repeat' first
    | exact noBlock_pure _
    | exact noBlock_get
    | with_reducible exact noBlock_callHook _ _
    | with_reducible exact noBlock_derefSess
    | with_reducible exact noBlock_modifyCtx _
    | with_reducible exact noBlock_modifyCmd _ _
    | with_reducible exact noBlock_emit _
    | with_reducible apply noBlock_bind
    | intro _
    | split

theorem noBlock_handleReplyBody (env : Env) (p : Nat) : NoBlock (handleReplyBody env p) := by
  unfold handleReplyBody
  try dsimp only
  repeat' first
    | exact noBlock_pure _
    | exact noBlock_get
    | with_reducible exact noBlock_callHook _ _
    | with_reducible exact noBlock_modifyCmd _ _
    | with_reducible apply noBlock_bind
    | intro _
    | split

theorem noBlock_bindingBody (env : Env) (header : Header) : NoBlock (bindingBody env header) := by
  unfold bindingBody
  try dsimp only
  repeat' first
    | exact noBlock_pure _
    | with_reducible exact noBlock_bindReply _ _
    | with_reducible exact noBlock_bindPush _ _
    | with_reducible exact noBlock_bindPull _ _
    | with_reducible exact noBlock_derefSess
    | with_reducible exact noBlock_modifyCtx _
    | with_reducible apply noBlock_bind
    | intro _
    | split

theorem triple_emit {P : St → Prop} (hT : ∀ s tr, P s → P { s with trace := tr }) (e : Event) :
    Triple P (emit e) P :=
  ⟨fun s hs => hT s _ hs⟩

theorem triple_callHook {P : St → Prop} (hT : ∀ s tr, P s → P { s with trace := tr })
    (env : Env) (pt : HookPoint) : Triple P (callHook env pt) P := by
  constructor
  intro s hs
  simp only [callHook]
  split
  · exact hs
  · split <;> exact hT s _ hs

theorem triple_modifyCtx {P : St → Prop} (f : Ctx → Ctx)
    (h : ∀ s, P s → P { s with ctx := f s.ctx }) : Triple P (modifyCtx f) P :=
  ⟨fun s hs => h s hs⟩

theorem framed_pullReturn (sid : Nat) (s0 : St) (body : Body) (xerr : Option Xerror)
    (codec : Option String) :
    Triple (Framed sid s0) (pullReturn body xerr codec) (Framed sid s0) := by
  unfold pullReturn modifyOutHeader
  dsimp only
  repeat' first
    | exact triple_pure _
    | ((with_reducible apply triple_modifyCtx); intro s hs; exact hs)
    | with_reducible apply triple_seq
    | intro _
    | split

theorem framed_handlePushBody (env : Env) (sid : Nat) (s0 : St) :
    Triple (Framed sid s0) (handlePushBody env) (Framed sid s0) := by
  have hT : ∀ s tr, Framed sid s0 s → Framed sid s0 { s with trace := tr } := fun _ _ h => h
  unfold handlePushBody pushUnknownHandleFunc pushHandleFunc
  dsimp only
  repeat' first
    | exact triple_pure _
    | exact triple_panic
    | ((with_reducible apply triple_get_bind); intro s hs)
    | with_reducible exact triple_callHook hT _ _
    | with_reducible exact triple_derefApiType
    | with_reducible exact triple_emit hT _
    | with_reducible apply triple_seq
    | intro _
    | split

theorem framed_handlePullBody (env : Env) (sid : Nat) (s0 : St) :
    Triple (Framed sid s0) (handlePullBody env) (Framed sid s0) := by
  have hT : ∀ s tr, Framed sid s0 s → Framed sid s0 { s with trace := tr } := fun _ _ h => h
  unfold handlePullBody pullUnknownHandleFunc pullHandleFunc sessWrite modifyOutHeader
  dsimp only
  repeat' first
    | exact triple_pure _
    | exact triple_panic
    | ((with_reducible apply triple_get_bind); intro s hs)
    | with_reducible exact triple_callHook hT _ _
    | with_reducible exact triple_derefApiType
    | with_reducible exact triple_derefSess
    | with_reducible exact triple_emit hT _
    | with_reducible exact framed_pullReturn _ _ _ _ _
    | ((with_reducible apply triple_modifyCtx); intro s hs; exact hs)
    | with_reducible apply triple_seq
    | intro _
    | split

theorem replyFramed_handleReplyBody (env : Env) (sid p : Nat) (s0 : St) :
    Triple (ReplyFramed sid p s0) (handleReplyBody env p) (ReplyFramed sid p s0) := by
  have hT : ∀ s tr, ReplyFramed sid p s0 s → ReplyFramed sid p s0 { s with trace := tr } :=
    fun _ _ h => h
  unfold handleReplyBody modifyCmd
  try dsimp only
  repeat' first
    | exact triple_pure _
    | ((with_reducible apply triple_get_bind); intro s hs)
    | with_reducible exact triple_callHook hT _ _
    | ((with_reducible apply triple_modify); intro s hs; simpa [ReplyFramed] using hs)
    | with_reducible apply triple_seq
    | intro _
    | split

/-- On a bound context `handlePush` returns normally, whatever the hooks
and the handler do, and leaves session, `PullCmd` objects and channels as
they were. -/
theorem handlePush_returns (env : Env) (s : St) (sid : Nat) (hs : s.ctx.sess = some sid) :
    (handlePush env s).1 = Res.ok () ∧
    (handlePush env s).2.sess = s.sess ∧
    (handlePush env s).2.cmds = s.cmds ∧
    (handlePush env s).2.chans = s.chans := by
  have hF := (framed_handlePushBody env sid s).run s ⟨hs, rfl, rfl, rfl⟩
  have hB := (noBlock_handlePushBody env).run s
  rcases hr : handlePushBody env s with ⟨r, s1⟩
  rw [hr] at hF hB
  obtain ⟨f1, f2, f3, f4⟩ := hF
  simp only at f1 f2 f3 f4
  cases r with
  | ok a =>
    simp [handlePush, M.recover, M.bind, hr, modifyCtx, M.modify, runlog, derefSess, f1, emit, f2,
      f3, f4]
  | panic =>
    simp [handlePush, M.recover, M.bind, hr, modifyCtx, M.modify, runlog, derefSess, f1, emit, f2,
      f3, f4]
  | block => exact absurd rfl hB

/-- On a bound context `handlePull` returns normally, whatever the hooks,
the handler and the write do. -/
theorem handlePull_returns (env : Env) (s : St) (sid : Nat) (hs : s.ctx.sess = some sid) :
    (handlePull env s).1 = Res.ok () := by
  have hF := (framed_handlePullBody env sid s).run s ⟨hs, rfl, rfl, rfl⟩
  have hB := (noBlock_handlePullBody env).run s
  rcases hr : handlePullBody env s with ⟨r, s1⟩
  rw [hr] at hF hB
  obtain ⟨f1, -⟩ := hF
  simp only at f1
  cases r with
  | ok a =>
    simp [handlePull, M.recover, M.bind, hr, modifyCtx, M.modify, runlog, derefSess, f1, emit]
  | panic =>
    simp [handlePull, M.recover, M.bind, hr, modifyCtx, M.modify, runlog, derefSess, f1, emit]
  | block => exact absurd rfl hB

/-- Method `done` never panics and leaves the context alone; it returns
unless the channel is open and full. -/
theorem pullCmd_done_safe (p : Nat) (s : St) :
    (PullCmd.done p s).1 ≠ Res.panic ∧
    (PullCmd.done p s).2.ctx = s.ctx ∧
    ((s.chans (s.cmds p).doneChan).closed = true ∨
      (s.chans (s.cmds p).doneChan).buf.length < (s.chans (s.cmds p).doneChan).cap →
      (PullCmd.done p s).1 = Res.ok ()) := by
  by_cases hc : (s.chans (s.cmds p).doneChan).closed = true
  · simp [PullCmd.done, M.recover, M.bind, M.get, chanSend, hc]
  · by_cases hroom : (s.chans (s.cmds p).doneChan).buf.length < (s.chans (s.cmds p).doneChan).cap
    · by_cases hn : s.sess.gracePullCmdWaitGroup - 1 < 0 <;>
        simp [PullCmd.done, M.recover, M.bind, M.get, chanSend, hc, hroom, sessMapDelete,
          M.modify, wgDone, hn]
    · simp [PullCmd.done, M.recover, M.bind, M.get, chanSend, hc, hroom]

/-- After the body of `handleReply`: the deferred `done`, the cost and the
run-log never panic on a bound context, and return when `done` returns. -/
theorem handleReply_tail (env : Env) (p sid : Nat) (s1 : St) (hs1 : s1.ctx.sess = some sid) :
    ((PullCmd.done p >>= fun _ =>
        modifyCmd p (fun c => { c with cost := timeSince env c.start }) >>= fun _ => runlog) s1).1
      ≠ Res.panic ∧
    ((PullCmd.done p s1).1 = Res.ok () →
      ((PullCmd.done p >>= fun _ =>
        modifyCmd p (fun c => { c with cost := timeSince env c.start }) >>= fun _ => runlog) s1).1
        = Res.ok ()) := by
  obtain ⟨d1, d2, -⟩ := pullCmd_done_safe p s1
  rcases hd : PullCmd.done p s1 with ⟨rd, s2⟩
  rw [hd] at d1 d2
  simp only at d1 d2
  have hs2 : s2.ctx.sess = some sid := by rw [d2]; exact hs1
  cases rd with
  | ok a => simp [M.bind, hd, modifyCmd, M.modify, runlog, derefSess, hs2, emit]
  | panic => exact absurd rfl d1
  | block => simp [M.bind, hd]

/-- On a bound context `handleReply` never panics, whatever the hooks do;
it returns normally when no pull-cmd is bound, and when the completion
channel of the bound pull-cmd is closed or has room. -/
theorem handleReply_safe (env : Env) (s : St) (sid : Nat) (hs : s.ctx.sess = some sid) :
    (handleReply env s).1 ≠ Res.panic ∧
    (s.ctx.pullCmd = none → (handleReply env s).1 = Res.ok ()) ∧
    (∀ p, s.ctx.pullCmd = some p →
      ((s.chans (s.cmds p).doneChan).closed = true ∨
        (s.chans (s.cmds p).doneChan).buf.length < (s.chans (s.cmds p).doneChan).cap) →
      (handleReply env s).1 = Res.ok ()) := by
  cases hp : s.ctx.pullCmd with
  | none => simp [handleReply, M.bind, M.get, hp, emit, M.modify]
  | some p =>
    have hF := (replyFramed_handleReplyBody env sid p s).run s ⟨hs, rfl, rfl⟩
    have hB := (noBlock_handleReplyBody env p).run s
    rcases hr : handleReplyBody env p s with ⟨r, s1⟩
    rw [hr] at hF hB
    obtain ⟨f1, f2, f3⟩ := hF
    simp only at f1 f2 f3
    have key : ∀ s1' : St, s1'.ctx.sess = some sid → s1'.chans = s.chans →
        (s1'.cmds p).doneChan = (s.cmds p).doneChan →
        ((PullCmd.done p >>= fun _ =>
          modifyCmd p (fun c => { c with cost := timeSince env c.start }) >>= fun _ => runlog)
          s1').1 ≠ Res.panic ∧
        (((s.chans (s.cmds p).doneChan).closed = true ∨
          (s.chans (s.cmds p).doneChan).buf.length < (s.chans (s.cmds p).doneChan).cap) →
        ((PullCmd.done p >>= fun _ =>
          modifyCmd p (fun c => { c with cost := timeSince env c.start }) >>= fun _ => runlog)
          s1').1 = Res.ok ()) := by
      intro s1' g1 g2 g3
      obtain ⟨t1, t2⟩ := handleReply_tail env p sid s1' g1
      refine ⟨t1, fun hch => t2 ?_⟩
      apply (pullCmd_done_safe p s1').2.2
      rw [g3, g2]
      exact hch
    cases r with
    | ok a =>
      obtain ⟨k1, k2⟩ := key s1 f1 f2 f3
      refine ⟨?_, by simp, ?_⟩
      · simpa [handleReply, M.bind, M.get, hp, M.recover, hr] using k1
      · intro q hq hch
        cases hq
        simpa [handleReply, M.bind, M.get, hp, M.recover, hr] using k2 hch
    | panic =>
      obtain ⟨k1, k2⟩ := key { s1 with trace := s1.trace ++ [Event.errorf] } f1 f2 f3
      refine ⟨?_, by simp, ?_⟩
      · simpa [handleReply, M.bind, M.get, hp, M.recover, hr, emit, M.modify] using k1
      · intro q hq hch
        cases hq
        simpa [handleReply, M.bind, M.get, hp, M.recover, hr, emit, M.modify] using k2 hch
    | block => exact absurd rfl hB

/-- C13: no panic escapes packet processing.  Whatever the hooks, the
router and the handlers do, a panic included: `binding` returns, and returns
a nil body slot when its body panicked; on a context bound to a session
`handlePush` and `handlePull` return, and `handleReply` never panics and
returns unless its send is parked on an open, full completion channel;
`handlePush` leaves the session, the `PullCmd` objects and the channels
untouched and hands no packet to the session. -/
theorem no_panic_escapes (env : Env) (header : Header) (s : St) (sid : Nat)
    (hs : s.ctx.sess = some sid) :
    (∃ body, (binding env header s).1 = Res.ok body) ∧
    ((bindingBody env header s).1 = Res.panic → (binding env header s).1 = Res.ok Body.nil) ∧
    (handlePush env s).1 = Res.ok () ∧
    ((handlePush env s).2.sess = s.sess ∧ (handlePush env s).2.cmds = s.cmds ∧
      (handlePush env s).2.chans = s.chans ∧
      writes (handlePush env s).2.trace = writes s.trace) ∧
    (handlePull env s).1 = Res.ok () ∧
    (handleReply env s).1 ≠ Res.panic ∧
    (s.ctx.pullCmd = none → (handleReply env s).1 = Res.ok ()) ∧
    (∀ p, s.ctx.pullCmd = some p →
      ((s.chans (s.cmds p).doneChan).closed = true ∨
        (s.chans (s.cmds p).doneChan).buf.length < (s.chans (s.cmds p).doneChan).cap) →
      (handleReply env s).1 = Res.ok ()) := by
  have hB := (noBlock_bindingBody env header).run s
  obtain ⟨p1, p2, p3, p4⟩ := handlePush_returns env s sid hs
  have p5 := (quiet_handlePush env (writes s.trace)).run s rfl
  obtain ⟨r1, r2, r3⟩ := handleReply_safe env s sid hs
  refine ⟨?_, ?_, p1, ⟨p2, p3, p4, p5⟩, handlePull_returns env s sid hs, r1, r2, r3⟩
  · rcases hr : bindingBody env header s with ⟨r, s1⟩
    rw [hr] at hB
    cases r with
    | ok b => exact ⟨b, by simp [binding, M.bind, M.recover, hr]⟩
    | panic => exact ⟨Body.nil, by simp [binding, M.bind, M.recover, hr, emit, M.modify]⟩
    | block => exact absurd rfl hB
  · intro hpanic
    rcases hr : bindingBody env header s with ⟨r, s1⟩
    rw [hr] at hpanic
    simp only at hpanic
    subst hpanic
    simp [binding, M.bind, M.recover, hr, emit, M.modify]

/-- C13, at sample inputs: hooks that panic during binding, and handlers
that panic in `handlePush` and `handlePull`. -/
theorem no_panic_escapes_witness :
    (binding hookPanicEnv pullHeader freshSt).1 = Res.ok Body.nil ∧
    (handlePush panicEnv (bindPush panicEnv pushHeader freshSt).2).1 = Res.ok () ∧
    (handlePull panicEnv (bindPull panicEnv pullHeader freshSt).2).1 = Res.ok () :=
  ⟨(no_panic_escapes hookPanicEnv pullHeader freshSt 1 rfl).2.1 rfl,
   (no_panic_escapes panicEnv pushHeader (bindPush panicEnv pushHeader freshSt).2 1 rfl).2.2.1,
   (no_panic_escapes panicEnv pullHeader
      (bindPull panicEnv pullHeader freshSt).2 1 rfl).2.2.2.2.1⟩

/-! ### Gzip transfer filter -/

/-- C14: `OnPack(b)` succeeds with some `p` and `OnUnpack(p)` returns
exactly `b` with a nil error, given the behaviour of the standard library on
`b`: writing to and flushing the byte buffer succeed and start with a header
(so `p` is not empty), the reader accepts what the writer produced, and
reading a flushed stream yields all the bytes written, with or without an
error at its end.  The byte buffer comes empty from its pool. -/
theorem gzip_round_trip (lib : GzipLib) (bb b w f : List UInt8)
    (hbb : bb = [])
    (hwrite : lib.write b = Except.ok w)
    (hflush : lib.flush b = Except.ok f)
    (hheader : w ≠ [])
    (hreset : lib.reset (w ++ f) = none)
    (hread : (lib.readAll (w ++ f)).1 = b) :
    ∃ p, (Gzip.OnPack lib bb b).1 = Except.ok p ∧ (Gzip.OnUnpack lib p).1 = Except.ok b := by
  subst hbb
  refine ⟨w ++ f, by simp [Gzip.OnPack, hwrite, hflush], ?_⟩
  have hne : ¬ (w.length + f.length = 0) := by
    intro h
    exact hheader (List.length_eq_zero.mp (by omega))
  simp [Gzip.OnUnpack, hne, hreset, hread]

/-- C14, at two sample inputs: the empty byte string and three bytes. -/
theorem gzip_round_trip_witness :
    (∃ p, (Gzip.OnPack storedLib [] []).1 = Except.ok p ∧
      (Gzip.OnUnpack storedLib p).1 = Except.ok []) ∧
    (∃ p, (Gzip.OnPack storedLib [] [1, 2, 3]).1 = Except.ok p ∧
      (Gzip.OnUnpack storedLib p).1 = Except.ok [1, 2, 3]) :=
  ⟨gzip_round_trip storedLib [] [] [31, 139] [] rfl rfl rfl (by decide) rfl rfl,
   gzip_round_trip storedLib [] [1, 2, 3] [31, 139, 1, 2, 3] [] rfl rfl rfl (by decide) rfl rfl⟩

/-- C15, as amended: on every exit path of `OnPack` and `OnUnpack` the gzip
writer and the gzip reader that were taken are back in their pools; on each
error return of `OnPack` the byte buffer is released; on the successful
return of `OnPack` the byte buffer is not released, its bytes being the
result. -/
theorem gzip_pools_released (lib : GzipLib) (bb src : List UInt8) :
    Released PoolEvent.wPoolGet PoolEvent.wPoolPut (Gzip.OnPack lib bb src).2 ∧
    Released PoolEvent.rPoolGet PoolEvent.rPoolPut (Gzip.OnUnpack lib src).2 ∧
    (∀ err, (Gzip.OnPack lib bb src).1 = Except.error err →
      Released PoolEvent.acquireByteBuffer PoolEvent.releaseByteBuffer (Gzip.OnPack lib bb src).2) ∧
    (∀ p, (Gzip.OnPack lib bb src).1 = Except.ok p →
      (Gzip.OnPack lib bb src).2.count PoolEvent.acquireByteBuffer = 1 ∧
      (Gzip.OnPack lib bb src).2.count PoolEvent.releaseByteBuffer = 0) := by
  refine ⟨?_, ?_, ?_, ?_⟩
  · unfold Gzip.OnPack Released
    split
    · rfl
    · split <;> rfl
  · unfold Gzip.OnUnpack Released
    split
    · rfl
    · split <;> rfl
  · intro err
    unfold Gzip.OnPack Released
    split
    · intro _; rfl
    · split
      · intro _; rfl
      · intro h; cases h
  · intro p
    unfold Gzip.OnPack
    split
    · intro h; cases h
    · split
      · intro h; cases h
      · intro _; exact ⟨rfl, rfl⟩

/-- C15 fails as stated: `OnPack` succeeds on three bytes and returns with
the byte buffer it acquired not released. -/
theorem gzip_pack_keeps_byte_buffer :
    (Gzip.OnPack storedLib [] [1, 2, 3]).1 = Except.ok [31, 139, 1, 2, 3] ∧
    (Gzip.OnPack storedLib [] [1, 2, 3]).2
      = [PoolEvent.wPoolGet, PoolEvent.acquireByteBuffer, PoolEvent.wPoolPut] ∧
    ¬ Released PoolEvent.acquireByteBuffer PoolEvent.releaseByteBuffer
        (Gzip.OnPack storedLib [] [1, 2, 3]).2 := by
  refine ⟨rfl, rfl, ?_⟩
  unfold Released
  decide

/-! ### Rejected configuration -/

/-- C27: when `check` rejects a config (invalid `Network`), the config is
left exactly as it was: every field, `DefaultBodyCodec` and the effective
threshold `slowCometDuration` included. -/
theorem check_rejects_untouched (p : PeerConfig) (hrej : p.check.2 ≠ none) :
    p.check.1 = p ∧
    p.check.1.DefaultBodyCodec = p.DefaultBodyCodec ∧
    p.check.1.slowCometDuration = p.slowCometDuration := by
  obtain ⟨u1, u2⟩ := check_unfold p
  cases hc : p.checkNetwork with
  | none =>
    rw [u1 hc]
    exact ⟨rfl, rfl, rfl⟩
  | some p1 => exact absurd (u2 p1 hc).1 hrej

/-- C27, at a sample input: the network name "udp" is rejected. -/
theorem check_rejects_untouched_witness :
    ({ sampleConfig with Network := "udp" } : PeerConfig).check.1
      = { sampleConfig with Network := "udp" } :=
  (check_rejects_untouched { sampleConfig with Network := "udp" } (by decide)).1

/-! ### Errors of `OnUnpack` -/

/-- C26: `OnUnpack` returns an empty input unchanged with a nil error; on a
non-empty input whose reader reset succeeds it returns the bytes read with a
nil error, whatever error the read-all ended with; it returns an error
exactly when the input is not empty and the reader reset fails, and the
error is that of the reset. -/
theorem gzip_unpack_errors (lib : GzipLib) (src : List UInt8) :
    (src = [] → (Gzip.OnUnpack lib src).1 = Except.ok src) ∧
    (src ≠ [] → lib.reset src = none →
      (Gzip.OnUnpack lib src).1 = Except.ok (lib.readAll src).1) ∧
    (∀ err, (Gzip.OnUnpack lib src).1 = Except.error err ↔
      (src ≠ [] ∧ lib.reset src = some err)) := by
  by_cases hsrc : src = []
  · subst hsrc
    simp [Gzip.OnUnpack]
  · have hlen : ¬ src.length = 0 := fun h => hsrc (List.length_eq_zero.mp h)
    cases hr : lib.reset src with
    | none => simp [Gzip.OnUnpack, hlen, hr, hsrc]
    | some e => simp [Gzip.OnUnpack, hlen, hr, hsrc]

/-! ### Unsupported packet type -/

/-- C24: for a header whose type is none of REPLY, PUSH and PULL, `binding`
returns no body slot and calls neither a hook nor a handler; `handle` then
sets the output status to UNSUPPORTED_TX with its status text, logs, and
asks for the session to be closed, calling no hook and no handler and
handing no packet to the session. -/
theorem unsupported_type_closes_session (env : Env) (header : Header) (s : St) (sid : Nat)
    (hs : s.ctx.sess = some sid)
    (hin : s.ctx.input.Header.Typ = header.Typ)
    (hreply : header.Typ ≠ env.TypeReply)
    (hpush : header.Typ ≠ env.TypePush)
    (hpull : header.Typ ≠ env.TypePull) :
    (binding env header s).1 = Res.ok Body.nil ∧
    (binding env header s).2.trace = s.trace ∧
    (handle env (binding env header s).2).1 = Res.ok () ∧
    (handle env (binding env header s).2).2.ctx.output.Header.StatusCode
      = env.StatusUnsupportedTx ∧
    (handle env (binding env header s).2).2.ctx.output.Header.Status
      = env.StatusText env.StatusUnsupportedTx ∧
    (handle env (binding env header s).2).2.trace
      = s.trace ++ [Event.errorf, Event.sessClose] ∧
    hookCalls (handle env (binding env header s).2).2.trace = hookCalls s.trace ∧
    handlerCalls (handle env (binding env header s).2).2.trace = handlerCalls s.trace ∧
    writes (handle env (binding env header s).2).2.trace = writes s.trace := by
  have hb : binding env header s = (Res.ok Body.nil,
      { s with ctx := { s.ctx with start := env.now,
                                   pluginContainer := s.sess.peerPluginContainer } }) := by
    simp [binding, bindingBody, M.recover, M.bind, modifyCtx, M.modify, derefSess, hs, hreply,
      hpush, hpull]
  rw [hb]
  have h1 : ¬ s.ctx.input.Header.Typ = env.TypeReply := by rw [hin]; exact hreply
  have h2 : ¬ s.ctx.input.Header.Typ = env.TypePush := by rw [hin]; exact hpush
  have h3 : ¬ s.ctx.input.Header.Typ = env.TypePull := by rw [hin]; exact hpull
  simp [handle, M.bind, M.get, h1, h2, h3, modifyOutHeader, modifyCtx, M.modify, derefSess, hs,
    emit, hookCalls_append, hookCalls, handlerCalls_append, handlerCalls, writes_append, writes]

/-- C24, at a sample input: a header of type 9. -/
theorem unsupported_type_closes_session_witness :
    (binding quietEnv strangeHeader (stWithInput strangeHeader)).1 = Res.ok Body.nil ∧
    (handle quietEnv (binding quietEnv strangeHeader (stWithInput strangeHeader)).2).2.trace
      = [Event.errorf, Event.sessClose] ∧
    (handle quietEnv
      (binding quietEnv strangeHeader (stWithInput strangeHeader)).2).2.ctx.output.Header.StatusCode
      = 415 :=
  have h := unsupported_type_closes_session quietEnv strangeHeader (stWithInput strangeHeader) 1
    rfl rfl (by decide) (by decide) (by decide)
  ⟨h.1, h.2.2.2.2.2.1, h.2.2.2.1⟩

/-! ### Raw body of an unknown handler -/

theorem get_bind_apply {β : Type} (f : St → M β) (s : St) : (M.get >>= f) s = f s s := rfl

/-- C21: `InputBodyBytes` returns the raw bytes when the input body is a
byte-slice pointer and nil otherwise, and changes nothing; `Bind(v)` returns
an empty codec name and a nil error and leaves the input body alone when
`InputBodyBytes` is nil; otherwise it returns what the unmarshalling
returns, replaces the input body by `v` when that succeeds and leaves the
input body unchanged when it fails. -/
theorem bind_raw_body (env : Env) (v : Body) (s : St) :
    (InputBodyBytes s).2 = s ∧
    (∀ b, s.ctx.input.Body = Body.bytesPtr b → (InputBodyBytes s).1 = Res.ok b) ∧
    ((∀ b, s.ctx.input.Body ≠ Body.bytesPtr b) → (InputBodyBytes s).1 = Res.ok none) ∧
    ((InputBodyBytes s).1 = Res.ok none →
      (Bind env v s).1 = Res.ok ("", none) ∧ (Bind env v s).2 = s) ∧
    (∀ bytes, (InputBodyBytes s).1 = Res.ok (some bytes) →
      (Bind env v s).1
        = Res.ok (env.unmarshal bytes v (decide (s.ctx.input.Header.Gzip ≠ NoCompression))) ∧
      ((env.unmarshal bytes v (decide (s.ctx.input.Header.Gzip ≠ NoCompression))).2 = none →
        (Bind env v s).2.ctx.input.Body = v) ∧
      ((env.unmarshal bytes v (decide (s.ctx.input.Header.Gzip ≠ NoCompression))).2 ≠ none →
        (Bind env v s).2 = s)) := by
  have hI : InputBodyBytes s = (Res.ok (match s.ctx.input.Body with
      | Body.bytesPtr b => b
      | _ => none), s) := by
    cases hB : s.ctx.input.Body <;> simp [InputBodyBytes, M.bind, M.get, hB]
  refine ⟨by rw [hI], ?_, ?_, ?_, ?_⟩
  · intro b hb
    rw [hI, hb]
  · intro hb
    rw [hI]
    split
    · rename_i b heq
      exact absurd heq (hb b)
    · rfl
  · intro hnone
    unfold Bind
    simp only [bind_apply, M.bind]
    rcases hr : InputBodyBytes s with ⟨r, s1⟩
    rw [hr] at hnone hI
    simp only at hnone
    subst hnone
    have hs1 : s1 = s := (Prod.mk.inj hI).2
    subst hs1
    exact ⟨rfl, rfl⟩
  · intro bytes hsome
    unfold Bind
    simp only [bind_apply, M.bind]
    rcases hr : InputBodyBytes s with ⟨r, s1⟩
    rw [hr] at hsome hI
    simp only at hsome
    subst hsome
    have hs1 : s1 = s := (Prod.mk.inj hI).2
    subst hs1
    simp only [get_bind_apply]
    generalize env.unmarshal bytes v (decide (s1.ctx.input.Header.Gzip ≠ NoCompression)) = r
    obtain ⟨name, err⟩ := r
    cases err with
    | none => exact ⟨rfl, fun _ => rfl, fun h => absurd rfl h⟩
    | some e => exact ⟨rfl, fun h => Option.noConfusion h, fun _ => rfl⟩

/-- C21, at sample inputs: a raw body that unmarshals, one that does not,
and a context without raw body. -/
theorem bind_raw_body_witness :
    (Bind jsonEnv (Body.val 1) (rawBodySt [123, 125])).1 = Res.ok ("json", none) ∧
    (Bind jsonEnv (Body.val 1) (rawBodySt [123, 125])).2.ctx.input.Body = Body.val 1 ∧
    (Bind jsonEnv (Body.val 1) (rawBodySt [1])).1 = Res.ok ("", some "invalid character") ∧
    (Bind jsonEnv (Body.val 1) (rawBodySt [1])).2 = rawBodySt [1] ∧
    (Bind jsonEnv (Body.val 1) freshSt).1 = Res.ok ("", none) :=
  have h1 := (bind_raw_body jsonEnv (Body.val 1) (rawBodySt [123, 125])).2.2.2.2 [123, 125] rfl
  have h2 := (bind_raw_body jsonEnv (Body.val 1) (rawBodySt [1])).2.2.2.2 [1] rfl
  have h3 := (bind_raw_body jsonEnv (Body.val 1) freshSt).2.2.2.1 rfl
  ⟨h1.1, h1.2.1 rfl, h2.1, h2.2.2 (by decide), h3.1⟩

/-! ### Size classes of the buffer pool -/

theorem shiftRight_one (n : Int) : n >>> (1 : Nat) = n / 2 := by
  rw [Int.shiftRight_eq_div_pow]
  norm_num

theorem le_indexLoop (n : Int) (idx : Nat) : idx ≤ indexLoop n idx := by
  induction n, idx using indexLoop.induct with
  | case1 n idx h ih =>
    rw [indexLoop, if_pos h]
    omega
  | case2 n idx h =>
    rw [indexLoop, if_neg h]

/-- The loop counts the bits of `n`. -/
theorem indexLoop_le_iff (i : Nat) :
    ∀ (n : Int) (idx : Nat), indexLoop n idx ≤ idx + i ↔ n < 2 ^ i := by
  induction i with
  | zero =>
    intro n idx
    by_cases h : 0 < n
    · rw [indexLoop, if_pos h]
      have := le_indexLoop (n >>> (1 : Nat)) (idx + 1)
      constructor
      · intro h2; omega
      · intro h2; simp at h2; omega
    · rw [indexLoop, if_neg h]
      simp; omega
  | succ i ih =>
    intro n idx
    have hp : (0 : Int) < 2 ^ i := by positivity
    by_cases h : 0 < n
    · rw [indexLoop, if_pos h, shiftRight_one]
      have := ih (n / 2) (idx + 1)
      rw [pow_succ]
      constructor
      · intro h2
        have h3 := this.mp (by omega)
        omega
      · intro h2
        have h3 := this.mpr (by omega)
        omega
    · rw [indexLoop, if_neg h]
      rw [pow_succ]
      constructor
      · intro _; omega
      · intro _; omega

/-- Before the cap at `steps - 1`, `index` is the least `i` with
`n ≤ 64 * 2 ^ i`. -/
theorem index_raw_le_iff (n : Int) (i : Nat) :
    indexLoop ((n - 1) >>> minBitSize) 0 ≤ i ↔ n ≤ 64 * 2 ^ i := by
  have h := indexLoop_le_iff i ((n - 1) >>> minBitSize) 0
  rw [Nat.zero_add] at h
  rw [h, Int.shiftRight_eq_div_pow]
  have hp : (0 : Int) < 2 ^ i := by positivity
  have h64 : ((2 ^ minBitSize : Nat) : Int) = 64 := by decide
  rw [h64]
  constructor
  · intro h2; omega
  · intro h2; omega

theorem index_eq_min (n : Int) :
    index n = min (indexLoop ((n - 1) >>> minBitSize) 0) 19 := by
  unfold index steps
  simp only []
  split <;> omega

/-- C25: for every `n ≥ 0`, `index(n)` is below `steps = 20`; it is the
least `i` with `n ≤ 64 * 2^i` when some `i ≤ 19` has that property and 19
otherwise; and `index` is monotone. -/
theorem index_spec (n : Int) (_hn : 0 ≤ n) :
    index n < steps ∧ index n ≤ 19 ∧
    ((∃ i : Nat, i ≤ 19 ∧ n ≤ 64 * 2 ^ i) →
      n ≤ 64 * 2 ^ (index n) ∧ ∀ j : Nat, n ≤ 64 * 2 ^ j → index n ≤ j) ∧
    ((¬ ∃ i : Nat, i ≤ 19 ∧ n ≤ 64 * 2 ^ i) → index n = 19) ∧
    (∀ m : Int, 0 ≤ m → m ≤ n → index m ≤ index n) := by
  have hmin := index_eq_min n
  refine ⟨by rw [hmin]; unfold steps; omega, by rw [hmin]; omega, ?_, ?_, ?_⟩
  · rintro ⟨i, hi, hle⟩
    have hraw : indexLoop ((n - 1) >>> minBitSize) 0 ≤ 19 :=
      le_trans ((index_raw_le_iff n i).mpr hle) hi
    have heq : index n = indexLoop ((n - 1) >>> minBitSize) 0 := by rw [hmin]; omega
    refine ⟨?_, fun j hj => ?_⟩
    · rw [heq]
      exact (index_raw_le_iff n _).mp le_rfl
    · rw [heq]
      exact (index_raw_le_iff n j).mpr hj
  · intro hno
    have hraw : ¬ indexLoop ((n - 1) >>> minBitSize) 0 ≤ 19 := by
      intro h
      exact hno ⟨19, le_rfl, (index_raw_le_iff n 19).mp h⟩
    rw [hmin]
    omega
  · intro m _ hmn
    rw [hmin, index_eq_min m]
    have h1 : indexLoop ((m - 1) >>> minBitSize) 0 ≤ indexLoop ((n - 1) >>> minBitSize) 0 := by
      apply (index_raw_le_iff m _).mpr
      exact le_trans hmn ((index_raw_le_iff n _).mp le_rfl)
    omega

/-- C25, at sample inputs: the lengths 0, 64, 65 and one above `64 * 2^19`. -/
theorem index_spec_witness :
    index 0 = 0 ∧ index 64 = 0 ∧ index 65 = 1 ∧ index 33554433 = 19 := by
  have h0 := index_spec 0 (by decide)
  have h64 := index_spec 64 (by decide)
  have h65 := index_spec 65 (by decide)
  have hbig := index_spec 33554433 (by decide)
  refine ⟨?_, ?_, ?_, ?_⟩
  · have := (h0.2.2.1 ⟨0, by decide, by decide⟩).2 0 (by decide)
    omega
  · have := (h64.2.2.1 ⟨0, by decide, by decide⟩).2 0 (by decide)
    omega
  · have h := h65.2.2.1 ⟨1, by decide, by decide⟩
    have hle := h.2 1 (by decide)
    have hne : index 65 ≠ 0 := by
      intro h0'
      have h1 := h.1
      rw [h0'] at h1
      omega
    omega
  · apply hbig.2.2.2.1
    rintro ⟨i, hi, hle⟩
    have : (2 : Int) ^ i ≤ 2 ^ 19 := pow_le_pow_right₀ (by decide) hi
    omega

/-! ### Buffers from the pool are empty -/

theorem poolClean_calibrate (lib : CalibrateLib) (p : BufferPool) (h : PoolClean p) :
    PoolClean (p.calibrate lib) := by
  unfold BufferPool.calibrate
  split
  · exact h
  · exact h

theorem poolClean_put (lib : CalibrateLib) (p : BufferPool) (b : ByteBuffer) (h : PoolClean p) :
    PoolClean (p.Put lib b) := by
  have h1 : PoolClean { p with calls := incrAt p.calls (index b.B.length) } := h
  have h2 : PoolClean
      (if ({ p with calls := incrAt p.calls (index b.B.length) } : BufferPool).calls.getD
            (index b.B.length) 0 > calibrateCallsThreshold
        then ({ p with calls := incrAt p.calls (index b.B.length) } : BufferPool).calibrate lib
        else { p with calls := incrAt p.calls (index b.B.length) }) := by
    split
    · exact poolClean_calibrate lib _ h1
    · exact h1
  have key : ∀ p2 : BufferPool, PoolClean p2 →
      PoolClean (if p2.maxSize = 0 ∨ b.cap ≤ p2.maxSize then
        { p2 with pool := b.Reset :: p2.pool } else p2) := by
    intro p2 hp2
    split
    · intro x hx
      simp only [List.mem_cons] at hx
      rcases hx with rfl | hx
      · rfl
      · exact hp2 x hx
    · exact hp2
  exact key _ h2

theorem poolClean_get (p : BufferPool) (pick : Option Nat) (h : PoolClean p) :
    (p.Get pick).1.B = [] ∧ PoolClean (p.Get pick).2 := by
  unfold BufferPool.Get
  split
  · rename_i i b heq
    have hmem : b ∈ p.pool := by
      cases pick with
      | none => simp at heq
      | some j =>
        simp at heq
        exact List.getElem?_mem heq.1
    refine ⟨h b hmem, ?_⟩
    intro x hx
    exact h x (List.mem_of_mem_eraseIdx hx)
  · exact ⟨rfl, h⟩

/-- C22: for every sequence of `Put` and `Get` calls on a pool whose pooled
buffers are left alone between the calls, every buffer returned by `Get`
(and so by `AcquireByteBuffer`) has length zero, whatever the buffers held
when they were released. -/
theorem pool_get_returns_empty (lib : CalibrateLib) (ops : List PoolOp) (p : BufferPool)
    (hclean : PoolClean p) :
    (∀ b ∈ (p.run lib ops).2, b.Len = 0) ∧ PoolClean (p.run lib ops).1 := by
  induction ops generalizing p with
  | nil => exact ⟨by simp [BufferPool.run], hclean⟩
  | cons op ops ih =>
    cases op with
    | Put b =>
      simp only [BufferPool.run]
      exact ih _ (poolClean_put lib p b hclean)
    | Get pick =>
      obtain ⟨g1, g2⟩ := poolClean_get p pick hclean
      obtain ⟨i1, i2⟩ := ih _ g2
      simp only [BufferPool.run]
      refine ⟨?_, i2⟩
      intro b hb
      simp only [List.mem_cons] at hb
      rcases hb with rfl | hb
      · simp [ByteBuffer.Len, g1]
      · exact i1 b hb

/-- C22, at the sample input of `testByteBuf`: two buffers of 16 bytes are
released and two buffers are acquired. -/
theorem pool_get_returns_empty_witness :
    PoolClean defaultBufferPool ∧
    (defaultBufferPool.run sampleCalibrateLib testByteBufOps).2.map ByteBuffer.Len
      = List.replicate (defaultBufferPool.run sampleCalibrateLib testByteBufOps).2.length 0 :=
  ⟨fun _ h => absurd h (List.not_mem_nil _),
   List.eq_replicate_iff.mpr ⟨List.length_map _ _, fun _ hn =>
     (List.mem_map.mp hn).elim fun b hb =>
       hb.2 ▸ (pool_get_returns_empty sampleCalibrateLib testByteBufOps defaultBufferPool
         (fun _ h => absurd h (List.not_mem_nil _))).1 b hb.1⟩⟩

/-! ### Reading into a byte buffer -/

/-- The loop of `ReadFrom` ends once the reader has delivered its data and
reported its final error. -/
theorem readLoop_spec (nStart : Nat) :
    ∀ (fuel : Nat) (r : Reader) (p : List UInt8) (nMax : Nat),
      r.chunks.length + r.data.length < fuel → 0 < nMax → p.length ≤ nMax →
      ∃ cap, (p ++ r.data).length ≤ cap ∧
        ByteBuffer.readLoop nStart fuel r p nMax =
          some ({ B := p ++ r.data, cap := cap }, (p ++ r.data).length - nStart,
            if r.final = ReadError.EOF then none else some r.final) := by
  intro fuel
  induction fuel with
  | zero => intro r p nMax h; omega
  | succ fuel ih =>
    intro r p nMax hfuel hpos hlen
    have hroom : 0 < (if p.length = nMax then nMax * 2 else nMax) - p.length := by
      split <;> omega
    have hfit : ∀ k, p.length + min k ((if p.length = nMax then nMax * 2 else nMax) - p.length)
        ≤ (if p.length = nMax then nMax * 2 else nMax) := by
      intro k
      split <;> omega
    have hpos1 : 0 < (if p.length = nMax then nMax * 2 else nMax) := by
      split <;> omega
    obtain ⟨data, chunks, final⟩ := r
    cases chunks with
    | cons c cs =>
      simp only [List.length_cons] at hfuel
      have hrec := ih
        { data := data.drop (min c ((if p.length = nMax then nMax * 2 else nMax) - p.length)),
          chunks := cs, final := final }
        (p ++ data.take (min c ((if p.length = nMax then nMax * 2 else nMax) - p.length)))
        (if p.length = nMax then nMax * 2 else nMax)
        (by simp only [List.length_drop]; omega) hpos1
        (by
          simp only [List.length_append, List.length_take]
          have := hfit c
          omega)
      simpa [ByteBuffer.readLoop, Reader.Read, List.append_assoc] using hrec
    | nil =>
      simp only [List.length_nil, Nat.zero_add] at hfuel
      by_cases hlast : data.length ≤ (if p.length = nMax then nMax * 2 else nMax) - p.length
      · refine ⟨(if p.length = nMax then nMax * 2 else nMax), ?_, ?_⟩
        · simp only [List.length_append]; omega
        · simp [ByteBuffer.readLoop, Reader.Read, hlast]
      · have hrec := ih
          { data := data.drop ((if p.length = nMax then nMax * 2 else nMax) - p.length),
            chunks := [], final := final }
          (p ++ data.take ((if p.length = nMax then nMax * 2 else nMax) - p.length))
          (if p.length = nMax then nMax * 2 else nMax)
          (by simp only [List.length_drop, List.length_nil]; omega) hpos1
          (by simp only [List.length_append, List.length_take]; omega)
        simpa [ByteBuffer.readLoop, Reader.Read, hlast, List.append_assoc] using hrec

/-- C23: for a buffer holding `old` and a reader that delivers `d` over
finitely many reads and then reports EOF, `ReadFrom` returns (with enough
rounds: more than the reads the reader spreads `d` over), leaves the buffer
holding `old` followed by `d` and returns `(len(d), nil)`; when the reader
ends with another error instead, the buffer is the same and `ReadFrom`
returns `(len(d), that error)`. -/
theorem readFrom_appends (fuel : Nat) (b : ByteBuffer) (r : Reader)
    (hwf : b.B.length ≤ b.cap)
    (hfuel : r.chunks.length + r.data.length < fuel) :
    ∃ cap, (b.B ++ r.data).length ≤ cap ∧
      b.ReadFrom fuel r =
        some ({ B := b.B ++ r.data, cap := cap }, r.data.length,
          if r.final = ReadError.EOF then none else some r.final) := by
  have hpos : 0 < (if b.cap = 0 then 64 else b.cap) := by split <;> omega
  have hlen : b.B.length ≤ (if b.cap = 0 then 64 else b.cap) := by split <;> omega
  obtain ⟨cap, h1, h2⟩ := readLoop_spec b.B.length fuel r b.B _ hfuel hpos hlen
  refine ⟨cap, h1, ?_⟩
  unfold ByteBuffer.ReadFrom
  simp only []
  rw [h2]
  simp

/-- C23, at two sample inputs: a buffer holding two bytes reads five bytes
from a reader that ends with EOF, and from one that ends with another
error. -/
theorem readFrom_appends_witness :
    (∃ cap, ByteBuffer.ReadFrom 9 { B := [1, 2], cap := 4 } (sampleReader ReadError.EOF) =
      some ({ B := [1, 2, 10, 20, 30, 40, 50], cap := cap }, 5, none)) ∧
    (∃ cap, ByteBuffer.ReadFrom 9 { B := [1, 2], cap := 4 }
        (sampleReader (ReadError.other "reset by peer")) =
      some ({ B := [1, 2, 10, 20, 30, 40, 50], cap := cap }, 5,
        some (ReadError.other "reset by peer"))) :=
  ⟨(readFrom_appends 9 { B := [1, 2], cap := 4 } (sampleReader ReadError.EOF)
      (by decide) (by decide)).elim fun cap h => ⟨cap, h.2⟩,
   (readFrom_appends 9 { B := [1, 2], cap := 4 } (sampleReader (ReadError.other "reset by peer"))
      (by decide) (by decide)).elim fun cap h => ⟨cap, h.2⟩⟩

end Teleport
